import Mathlib

/-!
Verification of the MPEG-1/2 Program Stream multiplexer / demultiplexer
(`libav/mpeg.c`).  The C code is shallowly embedded: machine integers
become `Nat` / `Int` with explicit truncation where overflow matters,
byte streams become `List Nat`, and the bit packer becomes explicit
MSB-first bit lists.  Definitions mirror the corresponding C functions;
theorems at the end settle the specification claims.
-/

set_option maxHeartbeats 1000000

/-! ## Bit-packing model

Modelled from the spec: the bit-packing collaborator (`init_put_bits`,
`put_bits(n, value)` MSB-first, `flush_put_bits`) is out of scope of
`mpeg.c`; `put_bits n v` appends the `n` low bits of `v`, most
significant first.  `bitsToBytes` realises the byte view of the
accumulated bits (all uses in this file are byte aligned). -/

/-- The `n` low bits of `v`, most significant bit first. -/
def natToBits (n : Nat) (v : Nat) : List Bool :=
  (List.range n).map (fun i => v.testBit (n - 1 - i))

/-- Fold an MSB-first bit list into the number it denotes. -/
def byteOfBits (bs : List Bool) : Nat :=
  bs.foldl (fun a b => 2 * a + (if b then 1 else 0)) 0

/-- Group an (aligned) MSB-first bit list into bytes. -/
def bitsToBytes : List Bool → List Nat
  | [] => []
  | b0 :: b1 :: b2 :: b3 :: b4 :: b5 :: b6 :: b7 :: rest =>
    byteOfBits [b0, b1, b2, b3, b4, b5, b6, b7] :: bitsToBytes rest
  | l => [byteOfBits l]

/-! ## Byte sink / byte source model

Modelled from the spec: the buffered byte I/O collaborator (`put_byte`,
`put_be16`, `put_be32`, `get_byte`, `get_be16`, `url_fskip`) is out of
scope of `mpeg.c`.  A sink is a produced `List Nat` of bytes; a source
is a consumed `List Nat`.  Reads past the end yield `0` (EOF). -/

def put_byte (v : Nat) : List Nat := [v % 256]

def put_be16 (v : Nat) : List Nat := put_byte (v >>> 8) ++ put_byte v

def put_be32 (v : Nat) : List Nat :=
  put_byte (v >>> 24) ++ put_byte (v >>> 16) ++ put_byte (v >>> 8) ++ put_byte v

def get_byte : List Nat → Nat × List Nat
  | [] => (0, [])
  | b :: r => (b, r)

def get_be16 (l : List Nat) : Nat × List Nat :=
  let r1 := get_byte l
  let r2 := get_byte r1.2
  ((r1.1 <<< 8) ||| r2.1, r2.2)

def url_fskip (l : List Nat) (n : Nat) : List Nat := l.drop n

/-! ## PtsTicker

Modelled from the spec: `tick.h` (the `Ticker` type, `ticker_init`,
`ticker_tick`) is part of this repository but is not under `src/`.
Per the spec, the ticker is the triple `(num, den, err)`; each call
`tick(n)` returns `⌊(n·num + err)/den⌋` and updates
`err ← (n·num + err) mod den`. -/

structure Ticker where
  num : Nat
  den : Nat
  err : Nat
deriving Repr, DecidableEq

instance : Inhabited Ticker := ⟨⟨0, 1, 0⟩⟩

/-- Modelled from the spec: `ticker_init(sample_rate, unit)` starts with
a zero remainder. -/
def ticker_init (den num : Nat) : Ticker := ⟨num, den, 0⟩

/-- Modelled from the spec: one tick; returns the integral increment and
the updated ticker. -/
def ticker_tick (t : Ticker) (n : Nat) : Nat × Ticker :=
  ((n * t.num + t.err) / t.den,
   { t with err := (n * t.num + t.err) % t.den })

/-- Run the ticker over a list of tick arguments, summing the returned
increments. -/
def ticker_run (t : Ticker) : List Nat → Nat × Ticker
  | [] => (0, t)
  | n :: ns =>
    let r := ticker_tick t n
    let rest := ticker_run r.2 ns
    (r.1 + rest.1, rest.2)

/-! ## Muxer data model (`mpeg.c` lines 25-48) -/

def PACK_START_CODE : Nat := 0x000001ba
def SYSTEM_HEADER_START_CODE : Nat := 0x000001bb
def ISO_11172_END_CODE : Nat := 0x000001b9
def PROGRAM_STREAM_MAP : Nat := 0x1bc
def PRIVATE_STREAM_1 : Nat := 0x1bd
def PADDING_STREAM : Nat := 0x1be
def PRIVATE_STREAM_2 : Nat := 0x1bf
def MAX_SYNC_SIZE : Nat := 100000

/-- Per-stream muxer state (`StreamInfo`).  The C fixed 4096-byte array
plus fill pointer `buffer_ptr` is modelled as the list of currently
pending bytes (`buffer_ptr = buffer.length`). -/
structure StreamInfo where
  buffer : List Nat
  id : Nat
  max_buffer_size : Nat
  packet_number : Nat
  pts : Int
  pts_ticker : Ticker
  start_pts : Int
deriving Repr, DecidableEq

instance : Inhabited StreamInfo := ⟨⟨[], 0, 0, 0, 0, default, -1⟩⟩

/-- Session muxer state (`MpegMuxContext`). -/
structure MpegMuxContext where
  packet_size : Nat
  packet_data_max_size : Nat
  packet_number : Nat
  pack_header_freq : Nat
  system_header_freq : Nat
  mux_rate : Nat
  audio_bound : Nat
  video_bound : Nat
  is_mpeg2 : Bool
  is_vcd : Bool
deriving Repr, DecidableEq

/-! ## put_pack_header (`mpeg.c` lines 71-93)

The C function writes 96 bits through the bit packer into a scratch
buffer and returns the byte count; the model returns the bytes (the C
return value is the length of this list). -/

def put_pack_header (s : MpegMuxContext) (timestamp : Nat) : List Nat :=
  bitsToBytes
    (natToBits 32 PACK_START_CODE ++
     natToBits 4 0x2 ++
     natToBits 3 ((timestamp >>> 30) &&& 0x07) ++
     natToBits 1 1 ++
     natToBits 15 ((timestamp >>> 15) &&& 0x7fff) ++
     natToBits 1 1 ++
     natToBits 15 (timestamp &&& 0x7fff) ++
     natToBits 1 1 ++
     natToBits 1 1 ++
     natToBits 22 s.mux_rate ++
     natToBits 1 1)

/-! ## put_system_header (`mpeg.c` lines 95-153) -/

/-- One per-stream entry of the system header (`mpeg.c` lines 134-144);
`id` is the already-coalesced stream ID. -/
def sys_header_entry_bits (id mbs : Nat) : List Bool :=
  natToBits 8 id ++ natToBits 2 3 ++
  (if id < 0xe0 then natToBits 1 0 ++ natToBits 13 (mbs / 128)
   else natToBits 1 1 ++ natToBits 13 (mbs / 1024))

/-- The stream-info loop of `put_system_header` (`mpeg.c` lines
123-145): `coded` is the running `private_stream_coded` flag. -/
def sys_header_stream_bits : List StreamInfo → Bool → List Bool
  | [], _ => []
  | st :: rest, coded =>
    if st.id < 0xc0 then
      if coded then sys_header_stream_bits rest coded
      else sys_header_entry_bits 0xbd st.max_buffer_size ++ sys_header_stream_bits rest true
    else sys_header_entry_bits st.id st.max_buffer_size ++ sys_header_stream_bits rest coded

/-- Full system header: fixed 96-bit prologue, per-stream entries, then
the 16-bit length back-patch at bytes 4-5 (`size - 6`, truncated to
bytes as the C `UINT8` stores do). -/
def put_system_header (s : MpegMuxContext) (streams : List StreamInfo) : List Nat :=
  let raw := bitsToBytes
    (natToBits 32 SYSTEM_HEADER_START_CODE ++
     natToBits 16 0 ++
     natToBits 1 1 ++
     natToBits 22 s.mux_rate ++
     natToBits 1 1 ++
     natToBits 6 s.audio_bound ++
     natToBits 1 1 ++
     natToBits 1 1 ++
     natToBits 1 0 ++
     natToBits 1 0 ++
     natToBits 1 1 ++
     natToBits 5 s.video_bound ++
     natToBits 8 0xff ++
     sys_header_stream_bits streams false)
  (raw.set 4 (((raw.length - 6) >>> 8) % 256)).set 5 ((raw.length - 6) &&& 0xff)

/-! ## flush_packet (`mpeg.c` lines 259-354)

The function is split at its natural seam: the pack/system preface is
assembled into a scratch buffer and written first (lines 278-289), then
the PES packet proper is emitted (lines 291-342).  All sizes the C code
keeps in `int` variables are `Int` here. -/

def flush_header_len (is_mpeg2 : Bool) : Nat := if is_mpeg2 then 8 else 5

/-- `payload_size` computation (`mpeg.c` lines 297-303). -/
def flush_payload_size (s : MpegMuxContext) (preface_size : Nat) (last_pkt : Bool)
    (id : Nat) : Int :=
  let last : Int := if last_pkt then 4 else 0
  let base : Int :=
    (s.packet_size : Int) - ((preface_size : Int) + 6 + (flush_header_len s.is_mpeg2 : Int) + last)
  if id < 0xc0 then base - 4 else base

/-- Start code selection (`mpeg.c` lines 298-303). -/
def flush_startcode (id : Nat) : Nat :=
  if id < 0xc0 then PRIVATE_STREAM_1 else 0x100 + id

/-- `stuffing_size` computation (`mpeg.c` lines 304-306). -/
def flush_stuffing_size (payload_size : Int) (buffer_ptr : Nat) : Int :=
  if payload_size - (buffer_ptr : Int) < 0 then 0 else payload_size - (buffer_ptr : Int)

/-- The 5-byte MPEG-1 PTS encoding (`mpeg.c` lines 320-325). -/
def mpeg1_pts_bytes (timestamp : Nat) : List Nat :=
  put_byte ((0x02 <<< 4) ||| ((((timestamp >>> 30) &&& 0x07) <<< 1) ||| 1)) ++
  put_be16 ((((timestamp >>> 15) &&& 0x7fff) <<< 1) ||| 1) ++
  put_be16 (((timestamp &&& 0x7fff) <<< 1) ||| 1)

/-- Pack/system header preface (`mpeg.c` lines 278-289). -/
def flush_preface (s : MpegMuxContext) (streams : List StreamInfo) (timestamp : Nat) :
    List Nat :=
  if s.packet_number % s.pack_header_freq = 0 then
    put_pack_header s timestamp ++
    (if s.packet_number % s.system_header_freq = 0 then put_system_header s streams else [])
  else []

/-- PES packet emission after the preface (`mpeg.c` lines 291-342).
The 16-bit length field is an `int` passed to `put_be16`; the C
conversion to the 16-bit wire value is `emod 2^16`. -/
def flush_pes (s : MpegMuxContext) (stream : StreamInfo) (preface_size : Nat)
    (last_pkt : Bool) (timestamp : Nat) : List Nat :=
  let id := stream.id
  let payload_size := flush_payload_size s preface_size last_pkt id
  let startcode := flush_startcode id
  let stuffing_size := flush_stuffing_size payload_size stream.buffer.length
  put_be32 startcode ++
  put_be16 ((payload_size + (flush_header_len s.is_mpeg2 : Int)).emod 65536).toNat ++
  List.replicate stuffing_size.toNat 0xff ++
  (if s.is_mpeg2 then [0x80, 0x80, 0x05] else []) ++
  mpeg1_pts_bytes timestamp ++
  (if startcode = PRIVATE_STREAM_1 then
     put_byte id ++ (if 0x80 ≤ id ∧ id ≤ 0xbf then [1, 0, 2] else [])
   else []) ++
  (if last_pkt then put_be32 ISO_11172_END_CODE else []) ++
  stream.buffer.take (payload_size - stuffing_size).toNat

/-- `flush_packet`: emits the preface and the PES packet, keeps the
unsent tail of the buffer (`mpeg.c` lines 344-349: the kept length is
`buffer_ptr - payload_size` clamped at 0, i.e. the buffer drops its
first `payload_size` bytes), bumps both packet counters and resets
`start_pts` to the -1 sentinel.  The timestamp is `start_pts` captured
before the preface; flushes only happen with a non-negative
`start_pts`, for which `toNat` is exact. -/
def flush_packet (s : MpegMuxContext) (streams : List StreamInfo) (stream_index : Nat)
    (last_pkt : Bool) : List Nat × MpegMuxContext × List StreamInfo :=
  let stream := streams.getD stream_index default
  let timestamp := stream.start_pts.toNat
  let preface := flush_preface s streams timestamp
  let payload_size := flush_payload_size s preface.length last_pkt stream.id
  let out := preface ++ flush_pes s stream preface.length last_pkt timestamp
  let stream' : StreamInfo :=
    { stream with
      buffer := stream.buffer.drop payload_size.toNat
      packet_number := stream.packet_number + 1
      start_pts := -1 }
  (out, { s with packet_number := s.packet_number + 1 }, streams.set stream_index stream')

/-- A run of flushes: the byte output of each flush in order. -/
def flushRun : MpegMuxContext → List StreamInfo → List (Nat × Bool) → List (List Nat)
  | _, _, [] => []
  | s, strs, (i, l) :: ops =>
    let r := flush_packet s strs i l
    r.1 :: flushRun r.2.1 r.2.2 ops

/-- Muxer state after a run of flushes. -/
def flushRunState : MpegMuxContext → List StreamInfo → List (Nat × Bool) →
    MpegMuxContext × List StreamInfo
  | s, strs, [] => (s, strs)
  | s, strs, (i, l) :: ops =>
    let r := flush_packet s strs i l
    flushRunState r.2.1 r.2.2 ops

/-! ## mpeg_mux_end (`mpeg.c` lines 394-414) -/

/-- The flush loop of `mpeg_mux_end` over a list of stream indices:
streams with pending data are flushed, the last stream (index `n - 1`)
with the terminal flag. -/
def mux_end_go (n : Nat) : MpegMuxContext → List StreamInfo → List Nat →
    List Nat × MpegMuxContext × List StreamInfo
  | s, strs, [] => ([], s, strs)
  | s, strs, i :: is =>
    let st := strs.getD i default
    if st.buffer.length > 0 then
      let r := flush_packet s strs i (i == n - 1)
      let rest := mux_end_go n r.2.1 r.2.2 is
      (r.1 ++ rest.1, rest.2)
    else mux_end_go n s strs is

/-- `mpeg_mux_end`: flush each stream with residual data in index
order; the commented-out stand-alone end-code write in the source is
not performed. -/
def mpeg_mux_end (s : MpegMuxContext) (streams : List StreamInfo) :
    List Nat × MpegMuxContext × List StreamInfo :=
  mux_end_go streams.length s streams (List.range streams.length)

/-- Projection of `mux_end_go` counting the flushes that carry the
terminal flag (each such flush writes the ISO 11172 end code once). -/
def mux_end_go_endwrites (n : Nat) : MpegMuxContext → List StreamInfo → List Nat → Nat
  | _, _, [] => 0
  | s, strs, i :: is =>
    let st := strs.getD i default
    if st.buffer.length > 0 then
      let r := flush_packet s strs i (i == n - 1)
      (if i == n - 1 then 1 else 0) + mux_end_go_endwrites n r.2.1 r.2.2 is
    else mux_end_go_endwrites n s strs is

/-- Number of end-code writes performed by `mpeg_mux_end`. -/
def mux_end_endcode_writes (s : MpegMuxContext) (streams : List StreamInfo) : Nat :=
  mux_end_go_endwrites streams.length s streams (List.range streams.length)

/-- Occurrence count of a byte pattern at all positions of a byte list. -/
def countOcc (pat : List Nat) : List Nat → Nat
  | [] => 0
  | x :: rest =>
    (if (x :: rest).take pat.length = pat then 1 else 0) + countOcc pat rest

/-! ## Demuxer: probe (`mpeg.c` lines 421-447) -/

/-- Modelled from the spec: `AVPROBE_SCORE_MAX` lives in the external
`avformat.h` collaborator. -/
def AVPROBE_SCORE_MAX : Nat := 100

/-- The probe scan loop: `code` is the shift register (a C `int`;
the left shift wraps at 32 bits). -/
def mpegps_probe_loop : Nat → List Nat → Nat
  | _, [] => 0
  | code, c :: rest =>
    let code' := (((code <<< 8) ||| c)) % 2 ^ 32
    if code' &&& 0xffffff00 = 0x100 then
      if code' = PACK_START_CODE ∨ code' = SYSTEM_HEADER_START_CODE ∨
         (0x1e0 ≤ code' ∧ code' ≤ 0x1ef) ∨ (0x1c0 ≤ code' ∧ code' ≤ 0x1df) ∨
         code' = PRIVATE_STREAM_2 ∨ code' = PROGRAM_STREAM_MAP ∨
         code' = PRIVATE_STREAM_1 ∨ code' = PADDING_STREAM
      then AVPROBE_SCORE_MAX - 1
      else 0
    else mpegps_probe_loop code' rest

/-- `mpegps_probe`: scan from the initial register value `0xff`. -/
def mpegps_probe (buf : List Nat) : Nat := mpegps_probe_loop 0xff buf

/-! ## Demuxer: start-code scan and PES parsing (`mpeg.c` lines 454-638) -/

/-- `find_start_code` (`mpeg.c` lines 454-479): byte-budgeted scan with
a 24-bit shift register; returns the found `0x1XX` code (or `none` on
budget exhaustion / EOF) and the remaining bytes. -/
def find_start_code : Nat → Nat → List Nat → Option Nat × List Nat
  | 0, _, bytes => (none, bytes)
  | _ + 1, _, [] => (none, [])
  | n + 1, state, v :: rest =>
    if state = 0x000001 then (some (((state <<< 8) ||| v) &&& 0xffffff), rest)
    else find_start_code n (((state <<< 8) ||| v) &&& 0xffffff) rest

/-- `get_pts` (`mpeg.c` lines 490-503): 5-byte 33-bit timestamp decode;
`c < 0` means "read the first byte from the stream". -/
def get_pts (l : List Nat) (c : Int) : Nat × List Nat :=
  let r0 := if c < 0 then get_byte l else (c.toNat, l)
  let r1 := get_be16 r0.2
  let r2 := get_be16 r1.2
  (((((r0.1 >>> 1) &&& 0x07) <<< 30) ||| ((r1.1 >>> 1) <<< 15)) ||| (r2.1 >>> 1), r2.2)

/-- A demuxed packet as surfaced through `AVPacket`. -/
structure DemuxPacket where
  stream_id : Nat
  pts : Nat
  dts : Nat
  data : List Nat
deriving Repr, DecidableEq

/-- Result of one trip through the `redo:` loop body of
`mpegps_read_packet`: a returned packet, a resynchronisation (`goto
redo`), or the `-EIO` error return. -/
inductive PesStep where
  | ok (pkt : DemuxPacket) (rest : List Nat)
  | redo (rest : List Nat)
  | fail
deriving Repr, DecidableEq

/-- The PES stuffing skip (`mpeg.c` lines 542-548): read bytes while
`0xff`, decrementing `len`; returns the first non-`0xff` byte. -/
def pes_skip_stuffing : List Nat → Int → Nat × List Nat × Int
  | [], len => (0, [], len - 1)
  | c :: rest, len =>
    if c = 0xff then pes_skip_stuffing rest (len - 1) else (c, rest, len - 1)

/-- Stuffing skip followed by the optional buffer-scale/size field
(`mpeg.c` lines 542-554). -/
def pes_optional_fields (l : List Nat) (len : Int) : Nat × List Nat × Int :=
  let r := pes_skip_stuffing l len
  if r.1 &&& 0xc0 = 0x40 then
    let ra := get_byte r.2.1
    let rb := get_byte ra.2
    (rb.1, rb.2, r.2.2 - 2)
  else r

/-- Whether a start code is one `mpegps_read_packet` treats as a PES
stream (`mpeg.c` lines 533-536). -/
def pes_startcode (sc : Nat) : Prop :=
  (0x1c0 ≤ sc ∧ sc ≤ 0x1df) ∨ (0x1e0 ≤ sc ∧ sc ≤ 0x1ef) ∨ sc = 0x1bd

instance (sc : Nat) : Decidable (pes_startcode sc) := by
  unfold pes_startcode; infer_instance

/-- Tail of `mpegps_read_packet` after the timestamp branches
(`mpeg.c` lines 591-637): private_stream_1 sub-stream handling, stream
lookup / creation (`knownIds` are the ids of already-registered
streams; inferable new ids auto-register), packet extraction. -/
def pes_finish (knownIds : List Nat) (startcode : Nat) (pts dts : Nat) (l : List Nat)
    (len : Int) : PesStep :=
  let r :=
    if startcode = 0x1bd then
      let rs := get_byte l
      if 0x80 ≤ rs.1 ∧ rs.1 ≤ 0xbf then (rs.1, rs.2.drop 3, len - 1 - 3)
      else (rs.1, rs.2, len - 1)
    else (startcode, l, len)
  if r.1 ∈ knownIds then
    .ok ⟨r.1, pts, dts, r.2.1.take r.2.2.toNat⟩ (r.2.1.drop r.2.2.toNat)
  else if (0x1e0 ≤ r.1 ∧ r.1 ≤ 0x1ef) ∨ (0x1c0 ≤ r.1 ∧ r.1 ≤ 0x1df) ∨
          (0x80 ≤ r.1 ∧ r.1 ≤ 0x9f) then
    .ok ⟨r.1, pts, dts, r.2.1.take r.2.2.toNat⟩ (r.2.1.drop r.2.2.toNat)
  else
    .redo (url_fskip r.2.1 r.2.2.toNat)

/-- One trip through the body of `mpegps_read_packet` (`mpeg.c` lines
514-637), from the start-code scan to a return, error, or `goto redo`. -/
def mpegps_read_packet_step (knownIds : List Nat) (bytes : List Nat) : PesStep :=
  let sc := find_start_code MAX_SYNC_SIZE 0xff bytes
  match sc.1 with
  | none => .fail
  | some startcode =>
    if startcode = PACK_START_CODE then .redo sc.2
    else if startcode = SYSTEM_HEADER_START_CODE then .redo sc.2
    else if startcode = PADDING_STREAM ∨ startcode = PRIVATE_STREAM_2 then
      let r := get_be16 sc.2
      .redo (url_fskip r.2 r.1)
    else if ¬ pes_startcode startcode then .redo sc.2
    else
      let rl := get_be16 sc.2
      let ro := pes_optional_fields rl.2 (rl.1 : Int)
      let c := ro.1
      if c &&& 0xf0 = 0x20 then
        let p := get_pts ro.2.1 (c : Int)
        pes_finish knownIds startcode p.1 p.1 p.2 (ro.2.2 - 4)
      else if c &&& 0xf0 = 0x30 then
        let p := get_pts ro.2.1 (c : Int)
        let d := get_pts p.2 (-1)
        pes_finish knownIds startcode p.1 d.1 d.2 (ro.2.2 - 9)
      else if c &&& 0xc0 = 0x80 then
        if ¬ (c &&& 0x30 = 0) then .fail
        else
          let rf := get_byte ro.2.1
          let rh := get_byte rf.2
          let flags := rf.1
          let len2 := ro.2.2 - 2
          if (rh.1 : Int) > len2 then .redo rh.2
          else
            -- source quirk (line 579): two successive `if`s, not
            -- `else if`; the masks are mutually exclusive
            let s1 : Nat × Nat × List Nat × Int × Int :=
              if flags &&& 0xc0 = 0x80 then
                let p := get_pts rh.2 (-1)
                (p.1, p.1, p.2, (rh.1 : Int) - 5, len2 - 5)
              else (0, 0, rh.2, (rh.1 : Int), len2)
            let s2 : Nat × Nat × List Nat × Int × Int :=
              if flags &&& 0xc0 = 0xc0 then
                let p := get_pts s1.2.2.1 (-1)
                let d := get_pts p.2 (-1)
                (p.1, d.1, d.2, s1.2.2.2.1 - 10, s1.2.2.2.2 - 10)
              else s1
            pes_finish knownIds startcode s2.1 s2.2.1
              (s2.2.2.1.drop s2.2.2.2.1.toNat) (s2.2.2.2.2 - s2.2.2.2.1)
      else
        pes_finish knownIds startcode 0 0 ro.2.1 ro.2.2

/-- The `redo:` loop of `mpegps_read_packet`, driven by a byte-count
fuel; each resynchronisation strictly consumes input, so
`bytes.length + 1` fuel always suffices (proved below). -/
def mpegps_read_packet_go (knownIds : List Nat) :
    Nat → List Nat → Except Unit (DemuxPacket × List Nat)
  | 0, _ => .error ()
  | fuel + 1, bytes =>
    match mpegps_read_packet_step knownIds bytes with
    | .fail => .error ()
    | .ok pkt rest => .ok (pkt, rest)
    | .redo rest => mpegps_read_packet_go knownIds fuel rest

/-- `mpegps_read_packet`: the unique error return models the C `-EIO`. -/
def mpegps_read_packet (knownIds : List Nat) (bytes : List Nat) :
    Except Unit (DemuxPacket × List Nat) :=
  mpegps_read_packet_go knownIds (bytes.length + 1) bytes

/-! ## Specification-side definitions (stated from the claims' words) -/

/-- Spec reading (C2): `payload_size` as the claim states it. -/
def spec_payload_size (packet_size preface_size : Nat) (is_mpeg2 last_pkt : Bool)
    (id : Nat) : Int :=
  (packet_size : Int) -
    ((preface_size : Int) + 6 + (if is_mpeg2 then 8 else 5) + (if last_pkt then 4 else 0)) -
    (if id < 0xc0 then 4 else 0)

/-- Spec reading (C6): the identifier byte of the first `00 00 01 xx`
start-code prefix of the buffer, sliding window. -/
def firstStartCodeId : List Nat → Option Nat
  | b0 :: b1 :: b2 :: b3 :: rest =>
    if b0 = 0 ∧ b1 = 0 ∧ b2 = 1 then some b3
    else firstStartCodeId (b1 :: b2 :: b3 :: rest)
  | _ => none

/-- Spec reading (C6): the PS start codes the probe accepts, by
identifier byte. -/
def ps_code_byte (x : Nat) : Prop :=
  x = 0xba ∨ x = 0xbb ∨ (0xbc ≤ x ∧ x ≤ 0xbf) ∨ (0xc0 ≤ x ∧ x ≤ 0xdf) ∨
  (0xe0 ≤ x ∧ x ≤ 0xef)

instance (x : Nat) : Decidable (ps_code_byte x) := by
  unfold ps_code_byte; infer_instance

/-- Spec reading (C6): the probe's claimed result. -/
def spec_probe_result (buf : List Nat) : Nat :=
  match firstStartCodeId buf with
  | some x => if ps_code_byte x then AVPROBE_SCORE_MAX - 1 else 0
  | none => 0

/-- Spec reading (C7): the start-code scan exhausted its budget or hit
EOF without finding a start code. -/
def demux_scan_failed (bytes : List Nat) : Prop :=
  (find_start_code MAX_SYNC_SIZE 0xff bytes).1 = none

/-- Spec reading (C7): the scan finds a PES start code whose header
declares MPEG-2 (`c & 0xc0 == 0x80`) with nonzero scrambling-control
bits (`c & 0x30 != 0`). -/
def demux_encrypted (bytes : List Nat) : Prop :=
  ∃ sc r0, find_start_code MAX_SYNC_SIZE 0xff bytes = (some sc, r0) ∧
    pes_startcode sc ∧
    ((pes_optional_fields (get_be16 r0).2 ((get_be16 r0).1 : Int)).1 &&& 0xc0 = 0x80 ∧
     ¬ ((pes_optional_fields (get_be16 r0).2 ((get_be16 r0).1 : Int)).1 &&& 0x30 = 0))

/-- Spec reading (C7): an MPEG-2 PES whose declared header length
exceeds the remaining packet length. -/
def demux_malformed (bytes : List Nat) : Prop :=
  ∃ sc r0, find_start_code MAX_SYNC_SIZE 0xff bytes = (some sc, r0) ∧
    pes_startcode sc ∧
    ((pes_optional_fields (get_be16 r0).2 ((get_be16 r0).1 : Int)).1 &&& 0xc0 = 0x80 ∧
     (pes_optional_fields (get_be16 r0).2 ((get_be16 r0).1 : Int)).1 &&& 0x30 = 0 ∧
     ((get_byte (get_byte (pes_optional_fields (get_be16 r0).2
         ((get_be16 r0).1 : Int)).2.1).2).1 : Int) >
       (pes_optional_fields (get_be16 r0).2 ((get_be16 r0).1 : Int)).2.2 - 2)

/-- Spec reading (C8): the pack header bit layout as the claim words
it, over the 33-bit timestamp `t mod 2^33`. -/
def spec_pack_header_bits (mux_rate timestamp : Nat) : List Bool :=
  natToBits 32 0x000001ba ++
  natToBits 4 0x2 ++
  natToBits 3 ((timestamp % 2 ^ 33) / 2 ^ 30) ++ [true] ++
  natToBits 15 ((timestamp % 2 ^ 33) / 2 ^ 15 % 2 ^ 15) ++ [true] ++
  natToBits 15 (timestamp % 2 ^ 15) ++ [true] ++
  [true] ++ natToBits 22 mux_rate ++ [true]

/-- Spec reading (C9): the per-stream entry layout as the claim words
it: 8-bit id, `0b11`, then audio (`0` + size/128) below `0xe0`, else
video (`1` + size/1024). -/
def spec_sys_entry_bits (e : Nat × Nat) : List Bool :=
  natToBits 8 e.1 ++ natToBits 2 3 ++
  (if e.1 < 0xe0 then false :: natToBits 13 (e.2 / 128)
   else true :: natToBits 13 (e.2 / 1024))

/-- The effective (id, max_buffer_size) entry list of the system
header's stream loop, with the `private_stream_coded` flag. -/
def sys_entries : List StreamInfo → Bool → List (Nat × Nat)
  | [], _ => []
  | st :: rest, coded =>
    if st.id < 0xc0 then
      if coded then sys_entries rest coded
      else (0xbd, st.max_buffer_size) :: sys_entries rest true
    else (st.id, st.max_buffer_size) :: sys_entries rest coded

/-! ## Theorems -/

theorem natToBits_length (n v : Nat) : (natToBits n v).length = n := by
  simp [natToBits]

theorem bitsToBytes_eq (l : List Bool) (h : 8 ≤ l.length) :
    bitsToBytes l = byteOfBits (List.take 8 l) :: bitsToBytes (List.drop 8 l) := by
  match l, h with
  | [], h => simp at h
  | [b0], h => simp at h
  | [b0, b1], h => simp at h
  | [b0, b1, b2], h => simp at h
  | [b0, b1, b2, b3], h => simp at h
  | [b0, b1, b2, b3, b4], h => simp at h
  | [b0, b1, b2, b3, b4, b5], h => simp at h
  | [b0, b1, b2, b3, b4, b5, b6], h => simp at h
  | b0 :: b1 :: b2 :: b3 :: b4 :: b5 :: b6 :: b7 :: rest, h => rfl


theorem bitsToBytes_append : ∀ a b : List Bool, a.length % 8 = 0 →
    bitsToBytes (a ++ b) = bitsToBytes a ++ bitsToBytes b
  | [], b, _ => by simp [bitsToBytes]
  | x :: rest, b, h => by
    have hlen : 8 ≤ (x :: rest).length := by
      simp only [List.length_cons] at h ⊢
      omega
    have hdl : (List.drop 8 (x :: rest)).length % 8 = 0 := by
      simp only [List.length_drop, List.length_cons] at h ⊢
      omega
    have ih := bitsToBytes_append (List.drop 8 (x :: rest)) b hdl
    have h7 : 7 - rest.length = 0 := by
      simp only [List.length_cons] at hlen
      omega
    have e1 : List.take 8 ((x :: rest) ++ b) = List.take 8 (x :: rest) := by
      rw [List.take_append_eq_append_take]
      simp [h7]
    have e2 : List.drop 8 ((x :: rest) ++ b) = List.drop 8 (x :: rest) ++ b := by
      rw [List.drop_append_eq_append_drop]
      simp [h7]
    rw [bitsToBytes_eq ((x :: rest) ++ b) (by simp; omega), e1, e2, ih,
        bitsToBytes_eq (x :: rest) hlen]
    simp
termination_by a => a.length
decreasing_by simp only [List.length_drop, List.length_cons]; omega

theorem bitsToBytes_length : ∀ l : List Bool, (bitsToBytes l).length = (l.length + 7) / 8
  | [] => by simp [bitsToBytes]
  | b :: rest => by
    by_cases h8 : 8 ≤ (b :: rest).length
    · have ih := bitsToBytes_length (List.drop 8 (b :: rest))
      rw [bitsToBytes_eq (b :: rest) h8]
      simp only [List.length_cons, List.length_drop] at ih ⊢
      omega
    · match b :: rest, h8 with
      | [], _ => simp [bitsToBytes]
      | [x0], _ => simp [bitsToBytes]
      | [x0, x1], _ => simp [bitsToBytes]
      | [x0, x1, x2], _ => simp [bitsToBytes]
      | [x0, x1, x2, x3], _ => simp [bitsToBytes]
      | [x0, x1, x2, x3, x4], _ => simp [bitsToBytes]
      | [x0, x1, x2, x3, x4, x5], _ => simp [bitsToBytes]
      | [x0, x1, x2, x3, x4, x5, x6], _ => simp [bitsToBytes]
      | x0 :: x1 :: x2 :: x3 :: x4 :: x5 :: x6 :: x7 :: tl, h => simp at h
termination_by l => l.length
decreasing_by simp only [List.length_drop, List.length_cons]; omega

theorem shiftLeft_lor_of_lt (x : Nat) {y k : Nat} (h : y < 2 ^ k) :
    (x <<< k) ||| y = x * 2 ^ k + y := by
  rw [Nat.shiftLeft_eq, Nat.mul_comm x (2 ^ k), ← Nat.mul_add_lt_is_or h x]

theorem land_shiftLeft (x y k : Nat) :
    x &&& (y <<< k) = ((x >>> k) &&& y) <<< k := by
  apply Nat.eq_of_testBit_eq
  intro i
  simp only [Nat.testBit_and, Nat.testBit_shiftLeft, Nat.testBit_shiftRight]
  by_cases hk : k ≤ i
  · simp [hk, Nat.add_sub_cancel' hk]
  · simp [hk]

theorem ticker_run_invariant (ns : List Nat) (num den e : Nat) (he : e < den) :
    (ticker_run ⟨num, den, e⟩ ns).1 * den + (ticker_run ⟨num, den, e⟩ ns).2.err
      = num * ns.sum + e
    ∧ (ticker_run ⟨num, den, e⟩ ns).2.err < den
    ∧ (ticker_run ⟨num, den, e⟩ ns).2.den = den := by
  have hden : 0 < den := Nat.lt_of_le_of_lt (Nat.zero_le e) he
  induction ns generalizing e with
  | nil => exact ⟨by simp [ticker_run], by simpa [ticker_run] using he, rfl⟩
  | cons n ns ih =>
    have h := ih ((n * num + e) % den) (Nat.mod_lt _ hden)
    simp only [ticker_run, ticker_tick, List.sum_cons]
    refine ⟨?_, h.2.1, h.2.2⟩
    have h1 := h.1
    calc ((n * num + e) / den + (ticker_run ⟨num, den, (n * num + e) % den⟩ ns).1) * den
          + (ticker_run ⟨num, den, (n * num + e) % den⟩ ns).2.err
        = (n * num + e) / den * den
          + ((ticker_run ⟨num, den, (n * num + e) % den⟩ ns).1 * den
             + (ticker_run ⟨num, den, (n * num + e) % den⟩ ns).2.err) := by ring
      _ = (n * num + e) / den * den + (num * ns.sum + (n * num + e) % den) := by rw [h1]
      _ = ((n * num + e) / den * den + (n * num + e) % den) + num * ns.sum := by ring
      _ = (n * num + e) + num * ns.sum := by rw [Nat.div_add_mod']
      _ = num * (n + ns.sum) + e := by ring

/-- C1: the ticker is drift-free: starting from `err = 0`, the summed
tick outputs over any finite sequence of tick arguments equal
`⌊num · Σnᵢ / den⌋`. -/
theorem ticker_drift_free (num den : Nat) (hden : 0 < den) (ns : List Nat) :
    (ticker_run ⟨num, den, 0⟩ ns).1 = num * ns.sum / den := by
  obtain ⟨h1, h2, -⟩ := ticker_run_invariant ns num den 0 hden
  have h3 : num * ns.sum
      = den * (ticker_run ⟨num, den, 0⟩ ns).1 + (ticker_run ⟨num, den, 0⟩ ns).2.err := by
    have hc := Nat.mul_comm den (ticker_run ⟨num, den, 0⟩ ns).1
    linarith
  rw [h3, Nat.mul_add_div hden, Nat.div_eq_of_lt h2]
  omega

/-- Witness for C1 at a concrete input: `num = 3`, `den = 7`,
ticks `[2, 5, 1]`. -/
theorem ticker_drift_free_witness :
    (ticker_run ⟨3, 7, 0⟩ [2, 5, 1]).1 = 3 * ([2, 5, 1] : List Nat).sum / 7 :=
  ticker_drift_free 3 7 (by decide) [2, 5, 1]

theorem mul_pow_lor_of_lt (a : Nat) {b k : Nat} (h : b < 2 ^ k) :
    (a * 2 ^ k) ||| b = a * 2 ^ k + b := by
  rw [← Nat.shiftLeft_eq a k, shiftLeft_lor_of_lt a h, Nat.shiftLeft_eq]

/-- C3: the muxer's 5-byte PTS field encoding (`flush_packet`, lines
320-325) and the demuxer's `get_pts` decoding are mutually inverse
modulo `2^33`: decoding the emitted bytes yields `t % 2^33` and
consumes exactly the five bytes. -/
theorem pts_encode_decode (t : Nat) :
    get_pts (mpeg1_pts_bytes t) (-1) = (t % 2 ^ 33, []) := by
  have hA : (t >>> 30) &&& 0x07 = t / 2 ^ 30 % 8 := by
    rw [Nat.shiftRight_eq_div_pow, show (0x07 : Nat) = 2 ^ 3 - 1 from rfl,
        Nat.and_pow_two_sub_one_eq_mod]
  have hB : (t >>> 15) &&& 0x7fff = t / 2 ^ 15 % 2 ^ 15 := by
    rw [Nat.shiftRight_eq_div_pow, show (0x7fff : Nat) = 2 ^ 15 - 1 from rfl,
        Nat.and_pow_two_sub_one_eq_mod]
  have hC : t &&& 0x7fff = t % 2 ^ 15 := by
    rw [show (0x7fff : Nat) = 2 ^ 15 - 1 from rfl, Nat.and_pow_two_sub_one_eq_mod]
  set A := t / 2 ^ 30 % 8 with hAdef
  set B := t / 2 ^ 15 % 2 ^ 15 with hBdef
  set C := t % 2 ^ 15 with hCdef
  have hAlt : A < 8 := Nat.mod_lt _ (by norm_num)
  have hBlt : B < 2 ^ 15 := Nat.mod_lt _ (by norm_num)
  have hClt : C < 2 ^ 15 := Nat.mod_lt _ (by norm_num)
  have hb0 : (0x02 <<< 4) ||| ((((t >>> 30) &&& 0x07) <<< 1) ||| 1) = 33 + 2 * A := by
    rw [hA, shiftLeft_lor_of_lt A (show (1 : Nat) < 2 ^ 1 by norm_num),
        show ((0x02 : Nat) <<< 4) = 2 * 2 ^ 4 from rfl,
        mul_pow_lor_of_lt 2 (show A * 2 ^ 1 + 1 < 2 ^ 4 by norm_num; omega)]
    norm_num
    omega
  have hw1 : (((t >>> 15) &&& 0x7fff) <<< 1) ||| 1 = 2 * B + 1 := by
    rw [hB, shiftLeft_lor_of_lt B (show (1 : Nat) < 2 ^ 1 by norm_num)]
    norm_num
    omega
  have hw2 : ((t &&& 0x7fff) <<< 1) ||| 1 = 2 * C + 1 := by
    rw [hC, shiftLeft_lor_of_lt C (show (1 : Nat) < 2 ^ 1 by norm_num)]
    norm_num
    omega
  have hBlt' : B < 32768 := by norm_num at hBlt; exact hBlt
  have hClt' : C < 32768 := by norm_num at hClt; exact hClt
  simp only [mpeg1_pts_bytes, put_byte, put_be16, hb0, hw1, hw2]
  have hm0 : (33 + 2 * A) % 256 = 33 + 2 * A := by omega
  have hm1h : ((2 * B + 1) >>> 8) % 256 = (2 * B + 1) / 256 := by
    rw [Nat.shiftRight_eq_div_pow]
    norm_num
    omega
  have hm1l : (2 * B + 1) % 256 = (2 * B + 1) % 256 := rfl
  have hm2h : ((2 * C + 1) >>> 8) % 256 = (2 * C + 1) / 256 := by
    rw [Nat.shiftRight_eq_div_pow]
    norm_num
    omega
  simp only [hm0, hm1h, hm2h]
  simp only [get_pts, get_byte, get_be16, List.cons_append, List.nil_append]
  norm_num
  have hv1 : (((2 * B + 1) / 256) <<< 8) ||| ((2 * B + 1) % 256) = 2 * B + 1 := by
    rw [show ((2 * B + 1) / 256) <<< 8 = ((2 * B + 1) / 256) * 2 ^ 8 from Nat.shiftLeft_eq _ 8,
        mul_pow_lor_of_lt _ (show (2 * B + 1) % 256 < 2 ^ 8 by norm_num; omega)]
    norm_num
    omega
  have hv2 : (((2 * C + 1) / 256) <<< 8) ||| ((2 * C + 1) % 256) = 2 * C + 1 := by
    rw [show ((2 * C + 1) / 256) <<< 8 = ((2 * C + 1) / 256) * 2 ^ 8 from Nat.shiftLeft_eq _ 8,
        mul_pow_lor_of_lt _ (show (2 * C + 1) % 256 < 2 ^ 8 by norm_num; omega)]
    norm_num
    omega
  rw [hv1, hv2]
  have hd0 : ((33 + 2 * A) >>> 1) &&& 0x07 = A := by
    rw [Nat.shiftRight_eq_div_pow, show (0x07 : Nat) = 2 ^ 3 - 1 from rfl,
        Nat.and_pow_two_sub_one_eq_mod]
    norm_num
    omega
  have hs1 : (2 * B + 1) >>> 1 = B := by
    rw [Nat.shiftRight_eq_div_pow]
    norm_num
    omega
  have hs2 : (2 * C + 1) >>> 1 = C := by
    rw [Nat.shiftRight_eq_div_pow]
    norm_num
    omega
  rw [hd0, hs1, hs2]
  have hfin : ((A <<< 30) ||| (B <<< 15)) ||| C = t % 2 ^ 33 := by
    rw [Nat.shiftLeft_eq, Nat.shiftLeft_eq,
        mul_pow_lor_of_lt A (show B * 2 ^ 15 < 2 ^ 30 by norm_num; omega),
        show A * 2 ^ 30 + B * 2 ^ 15 = (A * 2 ^ 15 + B) * 2 ^ 15 by ring,
        mul_pow_lor_of_lt _ hClt, hAdef, hBdef, hCdef]
    norm_num
    omega
  rw [hfin]
  norm_num

/-- C8 counterexample: at a concrete context and timestamp the pack
header is 12 bytes, not 14 as claimed. -/
theorem put_pack_header_not_14_bytes :
    (put_pack_header ⟨2048, 2041, 0, 1, 1, 565, 1, 0, false, false⟩ 0).length = 12 ∧
    (put_pack_header ⟨2048, 2041, 0, 1, 1, 565, 1, 0, false, false⟩ 0).length ≠ 14 := by
  constructor <;> decide

/-- C8 (amended): `put_pack_header` emits a 12-byte MPEG-1 pack header
with exactly the claimed MSB-first layout (start code, `0b0010`, the
33-bit timestamp split 3+15+15 with marker bits, marker, 22-bit
mux_rate, marker); the C function returns the byte count, i.e. the
length of this list. -/
theorem put_pack_header_layout (s : MpegMuxContext) (t : Nat) :
    put_pack_header s t = bitsToBytes (spec_pack_header_bits s.mux_rate t) ∧
    (put_pack_header s t).length = 12 := by
  have e3 : (t >>> 30) &&& 0x07 = (t % 2 ^ 33) / 2 ^ 30 := by
    rw [Nat.shiftRight_eq_div_pow, show (0x07 : Nat) = 2 ^ 3 - 1 from rfl,
        Nat.and_pow_two_sub_one_eq_mod,
        show (2 ^ 33 : Nat) = 2 ^ 30 * 2 ^ 3 by norm_num,
        Nat.mod_mul_right_div_self]
  have e15 : (t >>> 15) &&& 0x7fff = (t % 2 ^ 33) / 2 ^ 15 % 2 ^ 15 := by
    rw [Nat.shiftRight_eq_div_pow, show (0x7fff : Nat) = 2 ^ 15 - 1 from rfl,
        Nat.and_pow_two_sub_one_eq_mod,
        show (2 ^ 33 : Nat) = 2 ^ 15 * 2 ^ 18 by norm_num,
        Nat.mod_mul_right_div_self,
        Nat.mod_mod_of_dvd _ (by norm_num : (2 ^ 15 : Nat) ∣ 2 ^ 18)]
  have e0 : t &&& 0x7fff = t % 2 ^ 15 := by
    rw [show (0x7fff : Nat) = 2 ^ 15 - 1 from rfl, Nat.and_pow_two_sub_one_eq_mod]
  constructor
  · unfold put_pack_header spec_pack_header_bits PACK_START_CODE
    rw [e3, e15, e0, show natToBits 1 1 = [true] by decide]
  · unfold put_pack_header
    rw [bitsToBytes_length]
    simp [natToBits_length]

/-- C2: in `flush_packet`, `payload_size` equals
`packet_size - (preface_size + 6 + header_len + last)` with a further 4
subtracted below stream id `0xC0`; the stuffing count is
`max 0 (payload_size - buffer_ptr)` (so no stuffing once
`buffer_ptr ≥ payload_size`), and exactly that many `0xFF` bytes are
emitted right after the 6 start-code/length bytes. -/
theorem flush_packet_payload_stuffing :
    (∀ (s : MpegMuxContext) (pf : Nat) (last_pkt : Bool) (id : Nat),
       flush_payload_size s pf last_pkt id
         = spec_payload_size s.packet_size pf s.is_mpeg2 last_pkt id)
  ∧ (∀ (p : Int) (bp : Nat), flush_stuffing_size p bp = max 0 (p - (bp : Int)))
  ∧ (∀ (p : Int) (bp : Nat), p ≤ (bp : Int) → flush_stuffing_size p bp = 0)
  ∧ (∀ (s : MpegMuxContext) (streams : List StreamInfo) (i : Nat) (last_pkt : Bool),
       ∃ tail,
         (flush_packet s streams i last_pkt).1
           = flush_preface s streams ((streams.getD i default).start_pts.toNat)
             ++ put_be32 (flush_startcode (streams.getD i default).id)
             ++ put_be16 ((flush_payload_size s
                   (flush_preface s streams
                     ((streams.getD i default).start_pts.toNat)).length last_pkt
                   (streams.getD i default).id
                 + (flush_header_len s.is_mpeg2 : Int)).emod 65536).toNat
             ++ List.replicate
                 (max 0 (flush_payload_size s
                     (flush_preface s streams
                       ((streams.getD i default).start_pts.toNat)).length last_pkt
                     (streams.getD i default).id
                   - ((streams.getD i default).buffer.length : Int))).toNat 0xff
             ++ tail) := by
  refine ⟨?_, ?_, ?_, ?_⟩
  · intro s pf last_pkt id
    simp only [flush_payload_size, spec_payload_size, flush_header_len]
    split_ifs <;> push_cast <;> ring
  · intro p bp
    simp only [flush_stuffing_size]
    split_ifs <;> omega
  · intro p bp h
    simp only [flush_stuffing_size]
    split_ifs <;> omega
  · intro s streams i last_pkt
    refine ⟨(if s.is_mpeg2 then [0x80, 0x80, 0x05] else [])
      ++ mpeg1_pts_bytes ((streams.getD i default).start_pts.toNat)
      ++ (if flush_startcode (streams.getD i default).id = PRIVATE_STREAM_1 then
            put_byte (streams.getD i default).id
            ++ (if 0x80 ≤ (streams.getD i default).id ∧ (streams.getD i default).id ≤ 0xbf
                then [1, 0, 2] else [])
          else [])
      ++ (if last_pkt then put_be32 ISO_11172_END_CODE else [])
      ++ (streams.getD i default).buffer.take
           (flush_payload_size s
               (flush_preface s streams ((streams.getD i default).start_pts.toNat)).length
               last_pkt (streams.getD i default).id
             - flush_stuffing_size
                 (flush_payload_size s
                   (flush_preface s streams
                     ((streams.getD i default).start_pts.toNat)).length
                   last_pkt (streams.getD i default).id)
                 (streams.getD i default).buffer.length).toNat, ?_⟩
    have hst : ∀ (p : Int) (bp : Nat), flush_stuffing_size p bp = max 0 (p - (bp : Int)) := by
      intro p bp
      simp only [flush_stuffing_size]
      split_ifs <;> omega
    simp only [flush_packet, flush_pes, ← hst, List.append_assoc]

/-- Witness for C2 at concrete inputs: with `payload_size = 5` and
`buffer_ptr = 7` the stuffing size is zero. -/
theorem flush_packet_payload_stuffing_witness :
    flush_stuffing_size 5 7 = 0 :=
  flush_packet_payload_stuffing.2.2.1 5 7 (by norm_num)

theorem sys_entry_bits_eq (id mbs : Nat) :
    sys_header_entry_bits id mbs = spec_sys_entry_bits (id, mbs) := by
  simp only [sys_header_entry_bits, spec_sys_entry_bits]
  have h0 : natToBits 1 0 = [false] := by decide
  have h1 : natToBits 1 1 = [true] := by decide
  split_ifs <;> simp [h0, h1]

theorem sys_header_stream_aux :
    ∀ (streams : List StreamInfo) (coded : Bool),
      sys_header_stream_bits streams coded
        = (sys_entries streams coded).flatMap spec_sys_entry_bits
      ∧ ((sys_entries streams coded).filter (fun e => decide (e.1 < 0xc0))).length
          ≤ cond coded 0 1
      ∧ (∀ e ∈ sys_entries streams coded, e.1 < 0xc0 → e.1 = 0xbd)
      ∧ (sys_entries streams coded).length
          = (streams.filter (fun st => decide (0xc0 ≤ st.id))).length
            + cond coded 0
                (cond (streams.any (fun st => decide (st.id < 0xc0))) 1 0)
  | [], coded => by
    simp only [sys_header_stream_bits, sys_entries]
    cases coded <;> simp
  | st :: rest, coded => by
    rcases Nat.lt_or_ge st.id 0xc0 with hlt | hge
    · have hlt' : ¬ (0xc0 ≤ st.id) := by omega
      have efil : (st :: rest).filter (fun s => decide (0xc0 ≤ s.id))
          = rest.filter (fun s => decide (0xc0 ≤ s.id)) := by
        simp [List.filter_cons, hlt']
      have eany : (st :: rest).any (fun s => decide (s.id < 0xc0)) = true := by
        simp [List.any_cons, hlt]
      cases coded with
      | true =>
        have ih := sys_header_stream_aux rest true
        have ebits : sys_header_stream_bits (st :: rest) true
            = sys_header_stream_bits rest true := by
          simp [sys_header_stream_bits, hlt]
        have eent : sys_entries (st :: rest) true = sys_entries rest true := by
          simp [sys_entries, hlt]
        rw [ebits, eent, efil]
        refine ⟨ih.1, ih.2.1, ih.2.2.1, ?_⟩
        have h4 := ih.2.2.2
        simp only [cond_true] at h4 ⊢
        exact h4
      | false =>
        have ih := sys_header_stream_aux rest true
        have ebits : sys_header_stream_bits (st :: rest) false
            = sys_header_entry_bits 0xbd st.max_buffer_size
              ++ sys_header_stream_bits rest true := by
          simp [sys_header_stream_bits, hlt]
        have eent : sys_entries (st :: rest) false
            = (0xbd, st.max_buffer_size) :: sys_entries rest true := by
          simp [sys_entries, hlt]
        rw [ebits, eent, efil, eany]
        refine ⟨?_, ?_, ?_, ?_⟩
        · simp [ih.1, sys_entry_bits_eq]
        · have h2 := ih.2.1
          simp only [cond_true] at h2
          have hf : List.filter (fun e => decide (e.1 < 0xc0))
              ((0xbd, st.max_buffer_size) :: sys_entries rest true)
              = (0xbd, st.max_buffer_size)
                :: List.filter (fun e => decide (e.1 < 0xc0)) (sys_entries rest true) := by
            simp [List.filter_cons]
          rw [hf]
          simp only [List.length_cons, cond_false]
          omega
        · intro e he
          simp only [List.mem_cons] at he
          rcases he with rfl | he
          · intro _; rfl
          · exact ih.2.2.1 e he
        · have h4 := ih.2.2.2
          simp only [cond_true] at h4
          simp only [List.length_cons, cond_false, cond_true]
          omega
    · have hge' : ¬ (st.id < 0xc0) := by omega
      have ih := sys_header_stream_aux rest coded
      have ebits : sys_header_stream_bits (st :: rest) coded
          = sys_header_entry_bits st.id st.max_buffer_size
            ++ sys_header_stream_bits rest coded := by
        simp [sys_header_stream_bits, hge']
      have eent : sys_entries (st :: rest) coded
          = (st.id, st.max_buffer_size) :: sys_entries rest coded := by
        simp [sys_entries, hge']
      have efil : (st :: rest).filter (fun s => decide (0xc0 ≤ s.id))
          = st :: rest.filter (fun s => decide (0xc0 ≤ s.id)) := by
        simp [List.filter_cons, hge]
      have eany : (st :: rest).any (fun s => decide (s.id < 0xc0))
          = rest.any (fun s => decide (s.id < 0xc0)) := by
        simp [List.any_cons, hge']
      rw [ebits, eent, efil, eany]
      refine ⟨?_, ?_, ?_, ?_⟩
      · simp [ih.1, sys_entry_bits_eq]
      · have hf : List.filter (fun e => decide (e.1 < 0xc0))
            ((st.id, st.max_buffer_size) :: sys_entries rest coded)
            = List.filter (fun e => decide (e.1 < 0xc0)) (sys_entries rest coded) := by
          simp [List.filter_cons, hge']
        rw [hf]
        exact ih.2.1
      · intro e he
        simp only [List.mem_cons] at he
        rcases he with rfl | he
        · intro h; omega
        · exact ih.2.2.1 e he
      · have h4 := ih.2.2.2
        simp only [List.length_cons]
        omega

/-- C9: the system header's stream loop coalesces all streams with id
below `0xC0` into at most one entry, which uses id `0xBD`; every
emitted entry is laid out as the 8-bit id, `0b11`, then a `0` bit and
the 13-bit `max_buffer_size/128` below id `0xE0`, else a `1` bit and
the 13-bit `max_buffer_size/1024`; streams with id `≥ 0xC0` contribute
one entry each. -/
theorem put_system_header_private_coalescing (streams : List StreamInfo) :
    sys_header_stream_bits streams false
      = (sys_entries streams false).flatMap spec_sys_entry_bits
  ∧ ((sys_entries streams false).filter (fun e => decide (e.1 < 0xc0))).length ≤ 1
  ∧ (∀ e ∈ sys_entries streams false, e.1 < 0xc0 → e.1 = 0xbd)
  ∧ (sys_entries streams false).length
      = (streams.filter (fun st => decide (0xc0 ≤ st.id))).length
        + (if streams.any (fun st => decide (st.id < 0xc0)) then 1 else 0) := by
  obtain ⟨h1, h2, h3, h4⟩ := sys_header_stream_aux streams false
  refine ⟨h1, by simpa using h2, h3, ?_⟩
  cases hany : streams.any (fun st => decide (st.id < 0xc0)) <;>
    simp only [hany, cond_false, cond_true] at h4 ⊢ <;> simpa using h4

/-- Witness for C9 at a concrete configuration: two AC-3 streams
(ids `0x80`, `0x81`) yield at most one private-stream entry. -/
theorem put_system_header_private_coalescing_witness :
    ((sys_entries [⟨[], 0x80, 4096, 0, 0, ⟨0, 1, 0⟩, -1⟩,
                   ⟨[], 0x81, 4096, 0, 0, ⟨0, 1, 0⟩, -1⟩] false).filter
       (fun e => decide (e.1 < 0xc0))).length ≤ 1 :=
  (put_system_header_private_coalescing _).2.1

theorem land_ffffff00 (x c : Nat) (hc : c < 256) :
    (x * 256 + c) &&& 0xffffff00 = (x % 2 ^ 24) * 256 := by
  rw [show (0xffffff00 : Nat) = 0xffffff <<< 8 from rfl, land_shiftLeft]
  have h1 : (x * 256 + c) >>> 8 = x := by
    rw [Nat.shiftRight_eq_div_pow]
    norm_num
    omega
  rw [h1, show (0xffffff : Nat) = 2 ^ 24 - 1 from rfl, Nat.and_pow_two_sub_one_eq_mod,
      Nat.shiftLeft_eq]

theorem probe_loop_window :
    ∀ (rest : List Nat) (hi p2 p1 p0 : Nat), hi < 256 → p2 < 256 → p1 < 256 → p0 < 256 →
      (∀ b ∈ rest, b < 256) →
      mpegps_probe_loop (((hi * 256 + p2) * 256 + p1) * 256 + p0) rest
        = spec_probe_result (p2 :: p1 :: p0 :: rest)
  | [], hi, p2, p1, p0, _, _, _, _, _ => by
    simp [mpegps_probe_loop, spec_probe_result, firstStartCodeId]
  | c :: rest, hi, p2, p1, p0, hhi, hp2, hp1, hp0, hb => by
    have hc : c < 256 := hb c (by simp)
    have hrest : ∀ b ∈ rest, b < 256 := fun b hb' => hb b (by simp [hb'])
    have hshift : ((((hi * 256 + p2) * 256 + p1) * 256 + p0) <<< 8)
        ||| c = (((hi * 256 + p2) * 256 + p1) * 256 + p0) * 256 + c := by
      rw [Nat.shiftLeft_eq, show ((2 : Nat) ^ 8) = 256 from rfl,
          show ((((hi * 256 + p2) * 256 + p1) * 256 + p0) * 256 : Nat)
            = (((hi * 256 + p2) * 256 + p1) * 256 + p0) * 2 ^ 8 by norm_num,
          mul_pow_lor_of_lt _ (show c < 2 ^ 8 by norm_num; omega)]
    have hmod : ((((hi * 256 + p2) * 256 + p1) * 256 + p0) * 256 + c) % 2 ^ 32
        = ((p2 * 256 + p1) * 256 + p0) * 256 + c := by
      norm_num
      omega
    have hland : (((p2 * 256 + p1) * 256 + p0) * 256 + c) &&& 0xffffff00
        = ((p2 * 256 + p1) * 256 + p0) * 256 := by
      rw [land_ffffff00 _ _ hc, Nat.mod_eq_of_lt (by norm_num; omega)]
    simp only [mpegps_probe_loop, hshift, hmod, hland]
    by_cases htrig : (p2 * 256 + p1) * 256 + p0 = 1
    · have h100 : ((p2 * 256 + p1) * 256 + p0) * 256 = 0x100 := by rw [htrig]
      have hp : p2 = 0 ∧ p1 = 0 ∧ p0 = 1 := by omega
      rw [if_pos h100]
      have hspec : firstStartCodeId (p2 :: p1 :: p0 :: c :: rest) = some c := by
        rw [firstStartCodeId, if_pos ⟨hp.1, hp.2.1, by omega⟩]
      have hcode : ((p2 * 256 + p1) * 256 + p0) * 256 + c = 0x100 + c := by omega
      rw [hcode]
      simp only [spec_probe_result, hspec]
      have hiff : (0x100 + c = PACK_START_CODE ∨ 0x100 + c = SYSTEM_HEADER_START_CODE ∨
           (0x1e0 ≤ 0x100 + c ∧ 0x100 + c ≤ 0x1ef) ∨ (0x1c0 ≤ 0x100 + c ∧ 0x100 + c ≤ 0x1df) ∨
           0x100 + c = PRIVATE_STREAM_2 ∨ 0x100 + c = PROGRAM_STREAM_MAP ∨
           0x100 + c = PRIVATE_STREAM_1 ∨ 0x100 + c = PADDING_STREAM)
          ↔ ps_code_byte c := by
        simp only [PACK_START_CODE, SYSTEM_HEADER_START_CODE, PRIVATE_STREAM_2,
          PROGRAM_STREAM_MAP, PRIVATE_STREAM_1, PADDING_STREAM, ps_code_byte]
        omega
      by_cases hps : ps_code_byte c
      · rw [if_pos (hiff.mpr hps), if_pos hps]
      · rw [if_neg (fun h => hps (hiff.mp h)), if_neg hps]
    · have hne : ¬ ((p2 * 256 + p1) * 256 + p0) * 256 = 0x100 := by omega
      rw [if_neg hne]
      have ih := probe_loop_window rest p2 p1 p0 c hp2 hp1 hp0 hc hrest
      rw [ih]
      simp only [spec_probe_result]
      have hfs : firstStartCodeId (p2 :: p1 :: p0 :: c :: rest)
          = firstStartCodeId (p1 :: p0 :: c :: rest) := by
        rw [firstStartCodeId, if_neg (by omega)]
      rw [hfs]

/-- C6: `mpegps_probe` returns `AVPROBE_SCORE_MAX - 1` exactly when the
identifier byte of the first `00 00 01 xx` start-code prefix in the
buffer is a PS start code, `0` when that byte is any other code, and
`0` when the buffer holds no start-code prefix. -/
theorem mpegps_probe_characterisation (buf : List Nat) (hb : ∀ b ∈ buf, b < 256) :
    mpegps_probe buf = spec_probe_result buf := by
  have h0 : (0xff : Nat) = ((0 * 256 + 0) * 256 + 0) * 256 + 0xff := by norm_num
  have hw := probe_loop_window buf 0 0 0 0xff (by norm_num) (by norm_num) (by norm_num)
    (by norm_num) hb
  rw [mpegps_probe, h0, hw]
  simp only [spec_probe_result]
  have hfs : firstStartCodeId (0 :: 0 :: 0xff :: buf) = firstStartCodeId buf := by
    match buf with
    | [] => rfl
    | [b0] => simp [firstStartCodeId]
    | [b0, b1] => simp [firstStartCodeId]
    | b0 :: b1 :: b2 :: rest => simp [firstStartCodeId]
  rw [hfs]

/-- Witness for C6 at a concrete buffer: the first start-code prefix in
`[0xAA, 0xBB, 00 00 01 BA ...]` is the pack start code, so the probe
scores `AVPROBE_SCORE_MAX - 1`. -/
theorem mpegps_probe_characterisation_witness :
    mpegps_probe [0xaa, 0xbb, 0x00, 0x00, 0x01, 0xba] = AVPROBE_SCORE_MAX - 1 :=
  (mpegps_probe_characterisation [0xaa, 0xbb, 0x00, 0x00, 0x01, 0xba]
    (by decide)).trans (by decide)

theorem put_pack_header_length (s : MpegMuxContext) (t : Nat) :
    (put_pack_header s t).length = 12 := by
  rw [put_pack_header, bitsToBytes_length]
  simp [natToBits_length]

theorem put_pack_header_take4 (s : MpegMuxContext) (t : Nat) :
    (put_pack_header s t).take 4 = [0, 0, 1, 0xba] := by
  rw [put_pack_header]
  simp only [List.append_assoc]
  rw [bitsToBytes_append _ _ (by simp [natToBits_length]),
      show bitsToBytes (natToBits 32 PACK_START_CODE) = [0, 0, 1, 0xba] by decide,
      List.take_left' (by rfl)]

theorem take4_set45 (l : List Nat) (x y : Nat) :
    ((l.set 4 x).set 5 y).take 4 = l.take 4 := by
  apply List.ext_getElem?
  intro i
  by_cases hi : i < 4
  · rw [List.getElem?_take_of_lt hi, List.getElem?_take_of_lt hi,
        List.getElem?_set_ne (by omega), List.getElem?_set_ne (by omega)]
  · rw [List.getElem?_eq_none (by simp [List.length_take]; omega),
        List.getElem?_eq_none (by simp [List.length_take]; omega)]

theorem put_system_header_take4 (s : MpegMuxContext) (streams : List StreamInfo) :
    (put_system_header s streams).take 4 = [0, 0, 1, 0xbb] := by
  simp only [put_system_header]
  rw [take4_set45]
  simp only [List.append_assoc]
  rw [bitsToBytes_append _ _ (by simp [natToBits_length]),
      show bitsToBytes (natToBits 32 SYSTEM_HEADER_START_CODE) = [0, 0, 1, 0xbb] by decide,
      List.take_left' (by rfl)]

theorem put_system_header_len4 (s : MpegMuxContext) (streams : List StreamInfo) :
    4 ≤ (put_system_header s streams).length := by
  have h := congrArg List.length (put_system_header_take4 s streams)
  simp only [List.length_take] at h
  simp at h
  omega

theorem flush_pes_take4 (s : MpegMuxContext) (st : StreamInfo) (pf : Nat) (l : Bool)
    (ts : Nat) :
    (flush_pes s st pf l ts).take 4 = put_be32 (flush_startcode st.id) := by
  have hsplit : flush_pes s st pf l ts
      = put_be32 (flush_startcode st.id)
        ++ (put_be16 ((flush_payload_size s pf l st.id
              + (flush_header_len s.is_mpeg2 : Int)).emod 65536).toNat
            ++ List.replicate (flush_stuffing_size (flush_payload_size s pf l st.id)
                 st.buffer.length).toNat 0xff
            ++ (if s.is_mpeg2 then [0x80, 0x80, 0x05] else [])
            ++ mpeg1_pts_bytes ts
            ++ (if flush_startcode st.id = PRIVATE_STREAM_1 then
                  put_byte st.id
                  ++ (if 0x80 ≤ st.id ∧ st.id ≤ 0xbf then [1, 0, 2] else [])
                else [])
            ++ (if l then put_be32 ISO_11172_END_CODE else [])
            ++ st.buffer.take (flush_payload_size s pf l st.id
                 - flush_stuffing_size (flush_payload_size s pf l st.id)
                     st.buffer.length).toNat) := by
    simp [flush_pes, List.append_assoc]
  rw [hsplit, List.take_left' (by simp [put_be32, put_byte])]

theorem put_be32_0x100 (id : Nat) (h1 : 0xc0 ≤ id) (h2 : id < 256) :
    put_be32 (0x100 + id) = [0, 0, 1, id] := by
  simp only [put_be32, put_byte, Nat.shiftRight_eq_div_pow, List.cons_append,
    List.nil_append]
  norm_num
  omega

theorem flush_pes_take4_ne (s : MpegMuxContext) (st : StreamInfo) (pf : Nat) (l : Bool)
    (ts : Nat) (hid : st.id < 256) :
    (flush_pes s st pf l ts).take 4 ≠ [0, 0, 1, 0xba]
    ∧ (flush_pes s st pf l ts).take 4 ≠ [0, 0, 1, 0xbb] := by
  rw [flush_pes_take4]
  simp only [flush_startcode]
  by_cases hlt : st.id < 0xc0
  · rw [if_pos hlt]
    constructor <;> decide
  · rw [if_neg hlt]
    rw [put_be32_0x100 st.id (by omega) hid]
    constructor <;> intro h <;> simp at h <;> omega

theorem getD_id_lt (streams : List StreamInfo) (i : Nat)
    (hids : ∀ st ∈ streams, st.id < 256) :
    (streams.getD i default).id < 256 := by
  by_cases hlen : i < streams.length
  · rw [List.getD_eq_getElem?_getD, List.getElem?_eq_getElem hlen]
    exact hids _ (List.getElem_mem hlen)
  · rw [List.getD_eq_getElem?_getD, List.getElem?_eq_none (by omega)]
    have : (default : StreamInfo).id = 0 := rfl
    simp [this]

theorem flush_packet_head (s : MpegMuxContext) (streams : List StreamInfo) (i : Nat)
    (l : Bool) (hids : ∀ st ∈ streams, st.id < 256) :
    ((flush_packet s streams i l).1.take 4 = [0, 0, 1, 0xba]
        ↔ s.packet_number % s.pack_header_freq = 0)
  ∧ (s.packet_number % s.pack_header_freq = 0 →
      (((flush_packet s streams i l).1.drop 12).take 4 = [0, 0, 1, 0xbb]
        ↔ s.packet_number % s.system_header_freq = 0)) := by
  have hid : (streams.getD i default).id < 256 := getD_id_lt streams i hids
  have hout : (flush_packet s streams i l).1
      = flush_preface s streams (streams.getD i default).start_pts.toNat
        ++ flush_pes s (streams.getD i default)
          (flush_preface s streams (streams.getD i default).start_pts.toNat).length l
          (streams.getD i default).start_pts.toNat := rfl
  by_cases hpack : s.packet_number % s.pack_header_freq = 0
  · have hpre : flush_preface s streams (streams.getD i default).start_pts.toNat
        = put_pack_header s (streams.getD i default).start_pts.toNat
          ++ (if s.packet_number % s.system_header_freq = 0 then
                put_system_header s streams else []) := by
      simp [flush_preface, hpack]
    constructor
    · constructor
      · intro _; exact hpack
      · intro _
        rw [hout, hpre, List.append_assoc, List.take_append_eq_append_take,
            put_pack_header_take4]
        simp [put_pack_header_length]
    · intro _
      rw [hout, hpre, List.append_assoc, List.drop_append_eq_append_drop,
          List.drop_eq_nil_of_le (by rw [put_pack_header_length]),
          put_pack_header_length]
      simp only [List.nil_append, Nat.sub_self, List.drop_zero]
      by_cases hsys : s.packet_number % s.system_header_freq = 0
      · rw [if_pos hsys]
        constructor
        · intro _; exact hsys
        · intro _
          rw [List.take_append_eq_append_take, put_system_header_take4]
          have h4 : 4 - (put_system_header s streams).length = 0 := by
            have := put_system_header_len4 s streams
            omega
          simp [h4]
      · rw [if_neg hsys]
        simp only [List.nil_append]
        constructor
        · intro h
          exact absurd h (flush_pes_take4_ne s _ _ l _ hid).2
        · intro h; exact absurd h hsys
  · have hpre : flush_preface s streams (streams.getD i default).start_pts.toNat = [] := by
      simp [flush_preface, hpack]
    rw [hout, hpre, List.nil_append]
    constructor
    · constructor
      · intro h
        exact absurd h (flush_pes_take4_ne s _ _ l _ hid).1
      · intro h; exact absurd h hpack
    · intro h; exact absurd h hpack

theorem flush_packet_pn (s : MpegMuxContext) (streams : List StreamInfo) (i : Nat)
    (l : Bool) :
    (flush_packet s streams i l).2.1.packet_number = s.packet_number + 1 := by
  simp [flush_packet]

theorem flush_packet_freq (s : MpegMuxContext) (streams : List StreamInfo) (i : Nat)
    (l : Bool) :
    (flush_packet s streams i l).2.1.pack_header_freq = s.pack_header_freq
    ∧ (flush_packet s streams i l).2.1.system_header_freq = s.system_header_freq := by
  constructor <;> simp [flush_packet]

theorem flush_packet_ids (s : MpegMuxContext) (streams : List StreamInfo) (i : Nat)
    (l : Bool) (hids : ∀ st ∈ streams, st.id < 256) :
    ∀ st ∈ (flush_packet s streams i l).2.2, st.id < 256 := by
  intro st' hmem
  simp only [flush_packet] at hmem
  rcases List.mem_or_eq_of_mem_set hmem with h | h
  · exact hids _ h
  · rw [h]
    exact getD_id_lt streams i hids

theorem flushRunState_pn (ops : List (Nat × Bool)) :
    ∀ (s : MpegMuxContext) (streams : List StreamInfo),
      (flushRunState s streams ops).1.packet_number = s.packet_number + ops.length := by
  induction ops with
  | nil => intro s streams; simp [flushRunState]
  | cons op ops ih =>
    intro s streams
    obtain ⟨i, l⟩ := op
    simp only [flushRunState]
    rw [ih]
    rw [flush_packet_pn]
    simp
    omega

theorem flushRun_cadence_aux (ops : List (Nat × Bool)) :
    ∀ (s : MpegMuxContext) (streams : List StreamInfo),
      (∀ st ∈ streams, st.id < 256) →
      ∀ j, j < ops.length →
      (((flushRun s streams ops).getD j []).take 4 = [0, 0, 1, 0xba]
          ↔ (s.packet_number + j) % s.pack_header_freq = 0)
      ∧ ((s.packet_number + j) % s.pack_header_freq = 0 →
         ((((flushRun s streams ops).getD j []).drop 12).take 4 = [0, 0, 1, 0xbb]
          ↔ (s.packet_number + j) % s.system_header_freq = 0)) := by
  induction ops with
  | nil =>
    intro s streams _ j hj
    simp at hj
  | cons op ops ih =>
    intro s streams hids j hj
    obtain ⟨i, l⟩ := op
    match j with
    | 0 =>
      have h := flush_packet_head s streams i l hids
      simpa [flushRun] using h
    | j + 1 =>
      have hids' := flush_packet_ids s streams i l hids
      have ihs := ih (flush_packet s streams i l).2.1 (flush_packet s streams i l).2.2
        hids' j (by simpa using hj)
      rw [flush_packet_pn] at ihs
      rw [(flush_packet_freq s streams i l).1, (flush_packet_freq s streams i l).2] at ihs
      have harith : s.packet_number + 1 + j = s.packet_number + (j + 1) := by omega
      rw [harith] at ihs
      simpa [flushRun] using ihs

/-- C4: `flush_packet` begins its output with a pack header exactly
when the session `packet_number` before the flush is divisible by
`pack_header_freq`, additionally followed by a system header exactly
when it is divisible by `system_header_freq`; `packet_number`
increments by one per flush, so over a run of flushes starting at
`packet_number = 0` the pack header appears exactly at session-packet
indices `0, f, 2f, …`. -/
theorem flush_header_cadence :
    (∀ (s : MpegMuxContext) (streams : List StreamInfo) (i : Nat) (l : Bool),
       (∀ st ∈ streams, st.id < 256) →
       ((flush_packet s streams i l).1.take 4 = [0, 0, 1, 0xba]
         ↔ s.packet_number % s.pack_header_freq = 0))
  ∧ (∀ (s : MpegMuxContext) (streams : List StreamInfo) (i : Nat) (l : Bool),
       (flush_packet s streams i l).2.1.packet_number = s.packet_number + 1)
  ∧ (∀ (s : MpegMuxContext) (streams : List StreamInfo) (ops : List (Nat × Bool)),
       (flushRunState s streams ops).1.packet_number = s.packet_number + ops.length)
  ∧ (∀ (s : MpegMuxContext) (streams : List StreamInfo) (ops : List (Nat × Bool)),
       s.packet_number = 0 →
       (∀ st ∈ streams, st.id < 256) →
       ∀ j, j < ops.length →
       (((flushRun s streams ops).getD j []).take 4 = [0, 0, 1, 0xba]
          ↔ j % s.pack_header_freq = 0)
       ∧ (j % s.pack_header_freq = 0 →
          ((((flushRun s streams ops).getD j []).drop 12).take 4 = [0, 0, 1, 0xbb]
            ↔ j % s.system_header_freq = 0))) := by
  refine ⟨?_, flush_packet_pn, fun s streams ops => flushRunState_pn ops s streams, ?_⟩
  · intro s streams i l hids
    exact (flush_packet_head s streams i l hids).1
  · intro s streams ops h0 hids j hj
    have h := flushRun_cadence_aux ops s streams hids j hj
    rw [h0] at h
    simpa using h

/-- Witness for C4 at a concrete run: one stream, `pack_header_freq = 2`,
three flushes from `packet_number = 0`; the first flush output starts
with the pack start code. -/
theorem flush_header_cadence_witness :
    ((flushRun ⟨50, 43, 0, 2, 4, 5, 1, 0, false, false⟩
        [⟨[1, 2, 3], 0xc0, 4096, 0, 0, ⟨0, 1, 0⟩, 0⟩]
        [(0, false), (0, false), (0, false)]).getD 0 []).take 4 = [0, 0, 1, 0xba] :=
  (flush_header_cadence.2.2.2 ⟨50, 43, 0, 2, 4, 5, 1, 0, false, false⟩
      [⟨[1, 2, 3], 0xc0, 4096, 0, 0, ⟨0, 1, 0⟩, 0⟩]
      [(0, false), (0, false), (0, false)] rfl (by decide) 0 (by norm_num)).1.mpr
    (by norm_num)

theorem mux_end_go_endwrites_append (n : Nat) :
    ∀ (as bs : List Nat) (s : MpegMuxContext) (strs : List StreamInfo),
      mux_end_go_endwrites n s strs (as ++ bs)
        = mux_end_go_endwrites n s strs as
          + mux_end_go_endwrites n (mux_end_go n s strs as).2.1
              (mux_end_go n s strs as).2.2 bs := by
  intro as
  induction as with
  | nil => intro bs s strs; simp [mux_end_go, mux_end_go_endwrites]
  | cons i as ih =>
    intro bs s strs
    simp only [List.cons_append, mux_end_go_endwrites, mux_end_go, List.append_eq]
    by_cases hbuf : (strs.getD i default).buffer.length > 0
    · simp only [if_pos hbuf, ih]
      omega
    · simp only [if_neg hbuf, ih]

theorem mux_end_go_endwrites_zero (n : Nat) :
    ∀ (is : List Nat) (s : MpegMuxContext) (strs : List StreamInfo),
      (∀ i ∈ is, i ≠ n - 1) → mux_end_go_endwrites n s strs is = 0 := by
  intro is
  induction is with
  | nil => intro s strs _; simp [mux_end_go_endwrites]
  | cons i is ih =>
    intro s strs h
    have hi : i ≠ n - 1 := h i (by simp)
    have hrest : ∀ j ∈ is, j ≠ n - 1 := fun j hj => h j (by simp [hj])
    simp only [mux_end_go_endwrites]
    by_cases hbuf : (strs.getD i default).buffer.length > 0
    · simp only [if_pos hbuf, ih _ _ hrest]
      simp [hi]
    · simp only [if_neg hbuf, ih _ _ hrest]

theorem getD_set_ne (strs : List StreamInfo) (i j : Nat) (st : StreamInfo) (h : i ≠ j) :
    (strs.set i st).getD j default = strs.getD j default := by
  rw [List.getD_eq_getElem?_getD, List.getD_eq_getElem?_getD, List.getElem?_set_ne h]

theorem mux_end_go_preserves (n : Nat) :
    ∀ (is : List Nat) (s : MpegMuxContext) (strs : List StreamInfo) (j : Nat),
      (∀ i ∈ is, i ≠ j) →
      ((mux_end_go n s strs is).2.2).getD j default = strs.getD j default := by
  intro is
  induction is with
  | nil => intro s strs j _; simp [mux_end_go]
  | cons i is ih =>
    intro s strs j h
    have hi : i ≠ j := h i (by simp)
    have hrest : ∀ k ∈ is, k ≠ j := fun k hk => h k (by simp [hk])
    simp only [mux_end_go]
    by_cases hbuf : (strs.getD i default).buffer.length > 0
    · simp only [if_pos hbuf]
      rw [ih _ _ _ hrest]
      simp only [flush_packet]
      exact getD_set_ne _ _ _ _ hi
    · simp only [if_neg hbuf]
      exact ih _ _ _ hrest

theorem mux_end_go_out_append (n : Nat) :
    ∀ (as bs : List Nat) (s : MpegMuxContext) (strs : List StreamInfo),
      (mux_end_go n s strs (as ++ bs)).1
        = (mux_end_go n s strs as).1
          ++ (mux_end_go n (mux_end_go n s strs as).2.1 (mux_end_go n s strs as).2.2 bs).1 := by
  intro as
  induction as with
  | nil => intro bs s strs; simp [mux_end_go]
  | cons i as ih =>
    intro bs s strs
    simp only [List.cons_append, mux_end_go, List.append_eq]
    by_cases hbuf : (strs.getD i default).buffer.length > 0
    · simp only [if_pos hbuf, ih, List.append_assoc]
    · simp only [if_neg hbuf, ih]

theorem flush_pes_endcode (s : MpegMuxContext) (st : StreamInfo) (pf : Nat) (ts : Nat) :
    ∃ A B, flush_pes s st pf true ts = A ++ put_be32 ISO_11172_END_CODE ++ B := by
  refine ⟨put_be32 (flush_startcode st.id)
    ++ put_be16 ((flush_payload_size s pf true st.id
          + (flush_header_len s.is_mpeg2 : Int)).emod 65536).toNat
    ++ List.replicate (flush_stuffing_size (flush_payload_size s pf true st.id)
         st.buffer.length).toNat 0xff
    ++ (if s.is_mpeg2 then [0x80, 0x80, 0x05] else [])
    ++ mpeg1_pts_bytes ts
    ++ (if flush_startcode st.id = PRIVATE_STREAM_1 then
          put_byte st.id ++ (if 0x80 ≤ st.id ∧ st.id ≤ 0xbf then [1, 0, 2] else [])
        else []),
    st.buffer.take (flush_payload_size s pf true st.id
      - flush_stuffing_size (flush_payload_size s pf true st.id)
          st.buffer.length).toNat, ?_⟩
  simp [flush_pes, List.append_assoc]

theorem flush_packet_endcode (s : MpegMuxContext) (streams : List StreamInfo) (i : Nat) :
    ∃ A B, (flush_packet s streams i true).1 = A ++ put_be32 ISO_11172_END_CODE ++ B := by
  obtain ⟨A, B, h⟩ := flush_pes_endcode s (streams.getD i default)
    (flush_preface s streams (streams.getD i default).start_pts.toNat).length
    (streams.getD i default).start_pts.toNat
  refine ⟨flush_preface s streams (streams.getD i default).start_pts.toNat ++ A, B, ?_⟩
  have hout : (flush_packet s streams i true).1
      = flush_preface s streams (streams.getD i default).start_pts.toNat
        ++ flush_pes s (streams.getD i default)
          (flush_preface s streams (streams.getD i default).start_pts.toNat).length true
          (streams.getD i default).start_pts.toNat := rfl
  rw [hout, h]
  simp [List.append_assoc]

/-- C5 (amended): `mpeg_mux_end` writes the ISO 11172 end code exactly
once iff the LAST stream has residual data (it is carried inside that
final flushed packet); when the last stream's buffer is empty, no end
code is written even if earlier streams had residual data. -/
theorem mpeg_mux_end_endcode (s : MpegMuxContext) (streams : List StreamInfo) :
    (mux_end_endcode_writes s streams
       = if (streams.getD (streams.length - 1) default).buffer ≠ [] then 1 else 0)
  ∧ ((streams.getD (streams.length - 1) default).buffer ≠ [] →
      ∃ A B, (mpeg_mux_end s streams).1 = A ++ put_be32 ISO_11172_END_CODE ++ B) := by
  match hlen : streams.length with
  | 0 =>
    have hnil : streams = [] := List.length_eq_zero.mp hlen
    subst hnil
    have hdef : (default : StreamInfo).buffer = [] := rfl
    constructor
    · simp [mux_end_endcode_writes, mux_end_go_endwrites, hdef]
    · intro h
      simp [hdef] at h
  | m + 1 =>
    have hrange : List.range (m + 1) = List.range m ++ [m] := by
      rw [List.range_succ]
    have hne : ∀ i ∈ List.range m, i ≠ (m + 1) - 1 := by
      intro i hi
      have := List.mem_range.mp hi
      omega
    have hpres := mux_end_go_preserves (m + 1) (List.range m) s streams m
      (by intro i hi; have := List.mem_range.mp hi; omega)
    constructor
    · rw [mux_end_endcode_writes, hlen, hrange,
          mux_end_go_endwrites_append, mux_end_go_endwrites_zero _ _ _ _ hne]
      simp only [mux_end_go_endwrites, hpres]
      by_cases hbuf : (streams.getD m default).buffer.length > 0
      · rw [if_pos hbuf]
        have hb' : (streams.getD ((m + 1) - 1) default).buffer ≠ [] := by
          simp only [Nat.add_sub_cancel]
          intro hcon
          rw [hcon] at hbuf
          simp at hbuf
        rw [if_pos hb']
        simp
      · rw [if_neg hbuf]
        have hbe : (streams.getD m default).buffer = [] := by
          rcases h : (streams.getD m default).buffer with _ | ⟨x, xs⟩
          · rfl
          · rw [h] at hbuf; simp at hbuf
        have hb' : ¬ ((streams.getD ((m + 1) - 1) default).buffer ≠ []) := by
          simp only [Nat.add_sub_cancel]
          exact fun hcon => hcon hbe
        rw [if_neg hb']
    · intro hbufne
      rw [mpeg_mux_end, hlen, hrange, mux_end_go_out_append]
      have hbuf : ((mux_end_go (m + 1) s streams (List.range m)).2.2.getD m default).buffer.length > 0 := by
        rw [hpres]
        simp only [Nat.add_sub_cancel] at hbufne
        cases hb : (streams.getD m default).buffer with
        | nil => exact absurd hb hbufne
        | cons x xs => simp [hb]
      have hgo : (mux_end_go (m + 1) (mux_end_go (m + 1) s streams (List.range m)).2.1
            (mux_end_go (m + 1) s streams (List.range m)).2.2 [m]).1
          = (flush_packet (mux_end_go (m + 1) s streams (List.range m)).2.1
              (mux_end_go (m + 1) s streams (List.range m)).2.2 m (m == (m + 1) - 1)).1
            ++ [] := by
        simp only [mux_end_go, if_pos hbuf]
      have hbeq : (m == (m + 1) - 1) = true := by simp
      obtain ⟨A, B, hAB⟩ := flush_packet_endcode
        (mux_end_go (m + 1) s streams (List.range m)).2.1
        (mux_end_go (m + 1) s streams (List.range m)).2.2 m
      refine ⟨(mux_end_go (m + 1) s streams (List.range m)).1 ++ A, B ++ [], ?_⟩
      rw [hgo, hbeq] at *
      rw [hAB]
      simp [List.append_assoc]

/-- C5 counterexample: a session where the FIRST stream has residual
data but the last does not; the claim asserts exactly one end code is
written, yet none is (neither in the byte stream nor as an end-code
write). -/
theorem mpeg_mux_end_endcode_counterexample :
    (∃ st ∈ ([⟨[1, 2, 3], 0xc0, 4096, 0, 0, ⟨0, 1, 0⟩, 0⟩,
              ⟨[], 0xc1, 4096, 0, 0, ⟨0, 1, 0⟩, -1⟩] : List StreamInfo), st.buffer ≠ [])
    ∧ countOcc [0, 0, 1, 0xb9]
        (mpeg_mux_end ⟨50, 43, 0, 1, 1, 5, 1, 0, false, false⟩
          [⟨[1, 2, 3], 0xc0, 4096, 0, 0, ⟨0, 1, 0⟩, 0⟩,
           ⟨[], 0xc1, 4096, 0, 0, ⟨0, 1, 0⟩, -1⟩]).1 = 0
    ∧ mux_end_endcode_writes ⟨50, 43, 0, 1, 1, 5, 1, 0, false, false⟩
        [⟨[1, 2, 3], 0xc0, 4096, 0, 0, ⟨0, 1, 0⟩, 0⟩,
         ⟨[], 0xc1, 4096, 0, 0, ⟨0, 1, 0⟩, -1⟩] = 0 := by
  refine ⟨⟨⟨[1, 2, 3], 0xc0, 4096, 0, 0, ⟨0, 1, 0⟩, 0⟩, by simp, by simp⟩, by decide, by decide⟩

theorem get_byte_length (l : List Nat) : (get_byte l).2.length ≤ l.length := by
  cases l <;> simp [get_byte]

theorem get_be16_length (l : List Nat) : (get_be16 l).2.length ≤ l.length := by
  simp only [get_be16]
  calc (get_byte (get_byte l).2).2.length ≤ (get_byte l).2.length := get_byte_length _
    _ ≤ l.length := get_byte_length l

theorem get_pts_length (l : List Nat) (c : Int) : (get_pts l c).2.length ≤ l.length := by
  simp only [get_pts]
  by_cases hc : c < 0
  · simp only [if_pos hc]
    calc (get_be16 (get_be16 (get_byte l).2).2).2.length
        ≤ (get_be16 (get_byte l).2).2.length := get_be16_length _
      _ ≤ (get_byte l).2.length := get_be16_length _
      _ ≤ l.length := get_byte_length l
  · simp only [if_neg hc]
    calc (get_be16 (get_be16 l).2).2.length
        ≤ (get_be16 l).2.length := get_be16_length _
      _ ≤ l.length := get_be16_length l

theorem pes_skip_stuffing_length :
    ∀ (l : List Nat) (len : Int), (pes_skip_stuffing l len).2.1.length ≤ l.length := by
  intro l
  induction l with
  | nil => intro len; simp [pes_skip_stuffing]
  | cons c rest ih =>
    intro len
    simp only [pes_skip_stuffing]
    by_cases hc : c = 0xff
    · simp only [if_pos hc]
      calc (pes_skip_stuffing rest (len - 1)).2.1.length ≤ rest.length := ih _
        _ ≤ (c :: rest).length := by simp
    · simp only [if_neg hc]
      simp

theorem pes_optional_fields_length (l : List Nat) (len : Int) :
    (pes_optional_fields l len).2.1.length ≤ l.length := by
  simp only [pes_optional_fields]
  by_cases h : (pes_skip_stuffing l len).1 &&& 0xc0 = 0x40
  · simp only [if_pos h]
    calc (get_byte (get_byte (pes_skip_stuffing l len).2.1).2).2.length
        ≤ (get_byte (pes_skip_stuffing l len).2.1).2.length := get_byte_length _
      _ ≤ (pes_skip_stuffing l len).2.1.length := get_byte_length _
      _ ≤ l.length := pes_skip_stuffing_length l len
  · simp only [if_neg h]
    exact pes_skip_stuffing_length l len

theorem find_start_code_some_length :
    ∀ (n : Nat) (state : Nat) (bytes : List Nat) (sc : Nat) (rest : List Nat),
      find_start_code n state bytes = (some sc, rest) → rest.length < bytes.length := by
  intro n
  induction n with
  | zero => intro state bytes sc rest h; simp [find_start_code] at h
  | succ n ih =>
    intro state bytes sc rest h
    match bytes with
    | [] => simp [find_start_code] at h
    | v :: bs =>
      simp only [find_start_code] at h
      by_cases hs : state = 0x000001
      · rw [if_pos hs] at h
        cases h
        simp
      · rw [if_neg hs] at h
        have := ih _ _ _ _ h
        simp only [List.length_cons]
        omega

theorem pes_finish_redo_length (ids : List Nat) (sc : Nat) (pts dts : Nat) (l : List Nat)
    (len : Int) (rest : List Nat) :
    pes_finish ids sc pts dts l len = .redo rest → rest.length ≤ l.length := by
  intro h
  have hg := get_byte_length l
  simp only [pes_finish] at h
  split_ifs at h <;> simp only [PesStep.redo.injEq] at h <;>
    (subst h
     simp only [url_fskip, List.length_drop]
     omega)

theorem step_redo_lt (ids : List Nat) (bytes rest : List Nat) :
    mpegps_read_packet_step ids bytes = .redo rest → rest.length < bytes.length := by
  intro h
  rcases hsc : find_start_code MAX_SYNC_SIZE 0xff bytes with ⟨o, r0⟩
  cases o with
  | none => simp [mpegps_read_packet_step, hsc] at h
  | some sc =>
    have hr0 : r0.length < bytes.length := find_start_code_some_length _ _ _ _ _ hsc
    simp only [mpegps_read_packet_step, hsc] at h
    by_cases h1 : sc = PACK_START_CODE
    · rw [if_pos h1] at h
      simp only [PesStep.redo.injEq] at h
      subst h; exact hr0
    rw [if_neg h1] at h
    by_cases h2 : sc = SYSTEM_HEADER_START_CODE
    · rw [if_pos h2] at h
      simp only [PesStep.redo.injEq] at h
      subst h; exact hr0
    rw [if_neg h2] at h
    by_cases h3 : sc = PADDING_STREAM ∨ sc = PRIVATE_STREAM_2
    · rw [if_pos h3] at h
      simp only [PesStep.redo.injEq] at h
      subst h
      have := get_be16_length r0
      simp only [url_fskip, List.length_drop]
      omega
    rw [if_neg h3] at h
    by_cases h4 : pes_startcode sc
    swap
    · rw [if_pos (by exact h4)] at h
      simp only [PesStep.redo.injEq] at h
      subst h; exact hr0
    rw [if_neg (by simpa using h4)] at h
    rcases hbe : get_be16 r0 with ⟨len0, r1⟩
    have hr1 : r1.length ≤ r0.length := by
      have := get_be16_length r0
      rw [hbe] at this
      exact this
    simp only [hbe] at h
    rcases hopt : pes_optional_fields r1 (len0 : Int) with ⟨c, r2, len1⟩
    have hr2 : r2.length ≤ r1.length := by
      have := pes_optional_fields_length r1 (len0 : Int)
      rw [hopt] at this
      exact this
    simp only [hopt] at h
    by_cases h5 : c &&& 0xf0 = 0x20
    · rw [if_pos h5] at h
      have hfin := pes_finish_redo_length ids sc _ _ _ _ _ h
      have := get_pts_length r2 (c : Int)
      omega
    rw [if_neg h5] at h
    by_cases h6 : c &&& 0xf0 = 0x30
    · rw [if_pos h6] at h
      have hfin := pes_finish_redo_length ids sc _ _ _ _ _ h
      have hp := get_pts_length r2 (c : Int)
      have hd := get_pts_length (get_pts r2 (c : Int)).2 (-1)
      omega
    rw [if_neg h6] at h
    by_cases h7 : c &&& 0xc0 = 0x80
    · rw [if_pos h7] at h
      by_cases h8 : ¬ (c &&& 0x30 = 0)
      · rw [if_pos h8] at h
        simp at h
      rw [if_neg h8] at h
      have hgb : (get_byte (get_byte r2).2).2.length ≤ r2.length := by
        have ha := get_byte_length r2
        have hb := get_byte_length (get_byte r2).2
        omega
      by_cases h9 : ((get_byte (get_byte r2).2).1 : Int) > len1 - 2
      · rw [if_pos h9] at h
        simp only [PesStep.redo.injEq] at h
        subst h
        omega
      rw [if_neg h9] at h
      by_cases h10 : (get_byte r2).1 &&& 0xc0 = 0x80
      · rw [if_pos h10] at h
        have hp1 := get_pts_length (get_byte (get_byte r2).2).2 (-1)
        by_cases h11 : (get_byte r2).1 &&& 0xc0 = 0xc0
        · rw [if_pos h11] at h
          have hfin := pes_finish_redo_length ids sc _ _ _ _ _ h
          have hp2 := get_pts_length (get_pts (get_byte (get_byte r2).2).2 (-1)).2 (-1)
          have hp3 := get_pts_length
            (get_pts (get_pts (get_byte (get_byte r2).2).2 (-1)).2 (-1)).2 (-1)
          simp only [List.length_drop] at hfin
          omega
        · rw [if_neg h11] at h
          have hfin := pes_finish_redo_length ids sc _ _ _ _ _ h
          simp only [List.length_drop] at hfin
          omega
      · rw [if_neg h10] at h
        by_cases h11 : (get_byte r2).1 &&& 0xc0 = 0xc0
        · rw [if_pos h11] at h
          have hfin := pes_finish_redo_length ids sc _ _ _ _ _ h
          have hp1 := get_pts_length (get_byte (get_byte r2).2).2 (-1)
          have hp2 := get_pts_length (get_pts (get_byte (get_byte r2).2).2 (-1)).2 (-1)
          simp only [List.length_drop] at hfin
          omega
        · rw [if_neg h11] at h
          have hfin := pes_finish_redo_length ids sc _ _ _ _ _ h
          simp only [List.length_drop] at hfin
          omega
    rw [if_neg h7] at h
    have hfin := pes_finish_redo_length ids sc _ _ _ _ _ h
    omega

theorem read_packet_go_fuel (ids : List Nat) :
    ∀ (f1 f2 : Nat) (bytes : List Nat), bytes.length < f1 → bytes.length < f2 →
      mpegps_read_packet_go ids f1 bytes = mpegps_read_packet_go ids f2 bytes := by
  intro f1
  induction f1 with
  | zero => intro f2 bytes h1 h2; omega
  | succ f1 ih =>
    intro f2 bytes h1 h2
    match f2, h2 with
    | g2 + 1, h2 =>
      simp only [mpegps_read_packet_go]
      rcases hstep : mpegps_read_packet_step ids bytes with ⟨pkt, rest⟩ | rest
      · simp only [hstep]
      · simp only [hstep]
        have hlt := step_redo_lt ids bytes rest hstep
        exact ih g2 rest (by omega) (by omega)
      · simp only [hstep]

theorem read_packet_unfold (ids bytes : List Nat) :
    mpegps_read_packet ids bytes
      = match mpegps_read_packet_step ids bytes with
        | .fail => .error ()
        | .ok pkt rest => .ok (pkt, rest)
        | .redo rest => mpegps_read_packet ids rest := by
  rw [mpegps_read_packet]
  simp only [mpegps_read_packet_go]
  rcases hstep : mpegps_read_packet_step ids bytes with ⟨pkt, rest⟩ | rest
  · simp only [hstep]
  · simp only [hstep]
    have hlt := step_redo_lt ids bytes rest hstep
    exact read_packet_go_fuel ids bytes.length (rest.length + 1) rest (by omega) (by omega)
  · simp only [hstep]

theorem pes_finish_ne_fail (ids : List Nat) (sc pts dts : Nat) (l : List Nat) (len : Int) :
    pes_finish ids sc pts dts l len ≠ .fail := by
  simp only [pes_finish]
  split_ifs <;> simp

theorem and_f0_c0 (c v : Nat) (h : c &&& 0xf0 = v) : c &&& 0xc0 = v &&& 0xc0 := by
  calc c &&& 0xc0 = c &&& (0xf0 &&& 0xc0) := by
        conv_rhs => rw [show ((0xf0 : Nat) &&& 0xc0) = 0xc0 from by decide]
    _ = (c &&& 0xf0) &&& 0xc0 := (Nat.and_assoc c 0xf0 0xc0).symm
    _ = v &&& 0xc0 := by rw [h]

theorem step_fail_iff (ids bytes : List Nat) :
    mpegps_read_packet_step ids bytes = .fail ↔
      (demux_scan_failed bytes ∨ demux_encrypted bytes) := by
  rcases hsc : find_start_code MAX_SYNC_SIZE 0xff bytes with ⟨o, r0⟩
  cases o with
  | none =>
    simp only [mpegps_read_packet_step, hsc]
    constructor
    · intro _
      left
      simp [demux_scan_failed, hsc]
    · intro _
      trivial
  | some sc =>
    have hsf : ¬ demux_scan_failed bytes := by simp [demux_scan_failed, hsc]
    have henc_pes : demux_encrypted bytes → pes_startcode sc := by
      rintro ⟨sc', r0', hfind, hpes, -⟩
      rw [hsc] at hfind
      cases hfind
      exact hpes
    simp only [mpegps_read_packet_step, hsc]
    by_cases h1 : sc = PACK_START_CODE
    · rw [if_pos h1]
      constructor
      · intro hh; simp at hh
      · rintro (hh | hh)
        · exact absurd hh hsf
        · have hp := henc_pes hh
          subst h1
          exact absurd hp (by decide)
    rw [if_neg h1]
    by_cases h2 : sc = SYSTEM_HEADER_START_CODE
    · rw [if_pos h2]
      constructor
      · intro hh; simp at hh
      · rintro (hh | hh)
        · exact absurd hh hsf
        · have hp := henc_pes hh
          subst h2
          exact absurd hp (by decide)
    rw [if_neg h2]
    by_cases h3 : sc = PADDING_STREAM ∨ sc = PRIVATE_STREAM_2
    · rw [if_pos h3]
      constructor
      · intro hh; simp at hh
      · rintro (hh | hh)
        · exact absurd hh hsf
        · have hp := henc_pes hh
          rcases h3 with rfl | rfl
          · exact absurd hp (by decide)
          · exact absurd hp (by decide)
    rw [if_neg h3]
    by_cases h4 : pes_startcode sc
    swap
    · rw [if_pos (by exact h4)]
      constructor
      · intro hh; simp at hh
      · rintro (hh | hh)
        · exact absurd hh hsf
        · exact absurd (henc_pes hh) h4
    rw [if_neg (by simpa using h4)]
    rcases hbe : get_be16 r0 with ⟨len0, r1⟩
    simp only [hbe]
    rcases hopt : pes_optional_fields r1 (len0 : Int) with ⟨c, r2, len1⟩
    simp only [hopt]
    have henc : demux_encrypted bytes ↔ (c &&& 0xc0 = 0x80 ∧ ¬ (c &&& 0x30 = 0)) := by
      constructor
      · rintro ⟨sc', r0', hfind, hpes', hcond⟩
        rw [hsc] at hfind
        cases hfind
        rw [hbe] at hcond
        simp only [hopt] at hcond
        exact hcond
      · intro hcond
        refine ⟨sc, r0, hsc, h4, ?_⟩
        rw [hbe]
        simp only [hopt]
        exact hcond
    by_cases h5 : c &&& 0xf0 = 0x20
    · rw [if_pos h5]
      constructor
      · intro hh
        exact absurd hh (pes_finish_ne_fail ids sc _ _ _ _)
      · rintro (hh | hh)
        · exact absurd hh hsf
        · have hc := (henc.mp hh).1
          have hz := and_f0_c0 c _ h5
          simp only [show ((0x20 : Nat) &&& 0xc0) = 0 from by decide] at hz
          rw [hz] at hc
          exact absurd hc (by decide)
    rw [if_neg h5]
    by_cases h6 : c &&& 0xf0 = 0x30
    · rw [if_pos h6]
      constructor
      · intro hh
        exact absurd hh (pes_finish_ne_fail ids sc _ _ _ _)
      · rintro (hh | hh)
        · exact absurd hh hsf
        · have hc := (henc.mp hh).1
          have hz := and_f0_c0 c _ h6
          simp only [show ((0x30 : Nat) &&& 0xc0) = 0 from by decide] at hz
          rw [hz] at hc
          exact absurd hc (by decide)
    rw [if_neg h6]
    by_cases h7 : c &&& 0xc0 = 0x80
    · rw [if_pos h7]
      by_cases h8 : ¬ (c &&& 0x30 = 0)
      · rw [if_pos h8]
        constructor
        · intro _
          right
          exact henc.mpr ⟨h7, h8⟩
        · intro _
          rfl
      rw [if_neg h8]
      have hnofail : (if ((get_byte (get_byte r2).2).1 : Int) > len1 - 2 then
            PesStep.redo (get_byte (get_byte r2).2).2
          else
            (fun s2 : Nat × Nat × List Nat × Int × Int =>
              pes_finish ids sc s2.1 s2.2.1
                (s2.2.2.1.drop s2.2.2.2.1.toNat) (s2.2.2.2.2 - s2.2.2.2.1))
              (if (get_byte r2).1 &&& 0xc0 = 0xc0 then
                 ((get_pts (if (get_byte r2).1 &&& 0xc0 = 0x80 then
                      ((get_pts (get_byte (get_byte r2).2).2 (-1)).1,
                       (get_pts (get_byte (get_byte r2).2).2 (-1)).1,
                       (get_pts (get_byte (get_byte r2).2).2 (-1)).2,
                       ((get_byte (get_byte r2).2).1 : Int) - 5, len1 - 2 - 5)
                    else (0, 0, (get_byte (get_byte r2).2).2,
                      ((get_byte (get_byte r2).2).1 : Int), len1 - 2)).2.2.1 (-1)).1,
                  (get_pts (get_pts (if (get_byte r2).1 &&& 0xc0 = 0x80 then
                      ((get_pts (get_byte (get_byte r2).2).2 (-1)).1,
                       (get_pts (get_byte (get_byte r2).2).2 (-1)).1,
                       (get_pts (get_byte (get_byte r2).2).2 (-1)).2,
                       ((get_byte (get_byte r2).2).1 : Int) - 5, len1 - 2 - 5)
                    else (0, 0, (get_byte (get_byte r2).2).2,
                      ((get_byte (get_byte r2).2).1 : Int), len1 - 2)).2.2.1 (-1)).2 (-1)).1,
                  (get_pts (get_pts (if (get_byte r2).1 &&& 0xc0 = 0x80 then
                      ((get_pts (get_byte (get_byte r2).2).2 (-1)).1,
                       (get_pts (get_byte (get_byte r2).2).2 (-1)).1,
                       (get_pts (get_byte (get_byte r2).2).2 (-1)).2,
                       ((get_byte (get_byte r2).2).1 : Int) - 5, len1 - 2 - 5)
                    else (0, 0, (get_byte (get_byte r2).2).2,
                      ((get_byte (get_byte r2).2).1 : Int), len1 - 2)).2.2.1 (-1)).2 (-1)).2,
                  (if (get_byte r2).1 &&& 0xc0 = 0x80 then
                      ((get_pts (get_byte (get_byte r2).2).2 (-1)).1,
                       (get_pts (get_byte (get_byte r2).2).2 (-1)).1,
                       (get_pts (get_byte (get_byte r2).2).2 (-1)).2,
                       ((get_byte (get_byte r2).2).1 : Int) - 5, len1 - 2 - 5)
                    else (0, 0, (get_byte (get_byte r2).2).2,
                      ((get_byte (get_byte r2).2).1 : Int), len1 - 2)).2.2.2.1 - 10,
                  (if (get_byte r2).1 &&& 0xc0 = 0x80 then
                      ((get_pts (get_byte (get_byte r2).2).2 (-1)).1,
                       (get_pts (get_byte (get_byte r2).2).2 (-1)).1,
                       (get_pts (get_byte (get_byte r2).2).2 (-1)).2,
                       ((get_byte (get_byte r2).2).1 : Int) - 5, len1 - 2 - 5)
                    else (0, 0, (get_byte (get_byte r2).2).2,
                      ((get_byte (get_byte r2).2).1 : Int), len1 - 2)).2.2.2.2 - 10)
               else (if (get_byte r2).1 &&& 0xc0 = 0x80 then
                  ((get_pts (get_byte (get_byte r2).2).2 (-1)).1,
                   (get_pts (get_byte (get_byte r2).2).2 (-1)).1,
                   (get_pts (get_byte (get_byte r2).2).2 (-1)).2,
                   ((get_byte (get_byte r2).2).1 : Int) - 5, len1 - 2 - 5)
                else (0, 0, (get_byte (get_byte r2).2).2,
                  ((get_byte (get_byte r2).2).1 : Int), len1 - 2)))) ≠ PesStep.fail := by
        by_cases h9 : ((get_byte (get_byte r2).2).1 : Int) > len1 - 2
        · rw [if_pos h9]
          simp
        · rw [if_neg h9]
          exact pes_finish_ne_fail ids sc _ _ _ _
      constructor
      · intro hh
        exact absurd hh hnofail
      · rintro (hh | hh)
        · exact absurd hh hsf
        · exact absurd (henc.mp hh).2 h8
    rw [if_neg h7]
    constructor
    · intro hh
      exact absurd hh (pes_finish_ne_fail ids sc _ _ _ _)
    · rintro (hh | hh)
      · exact absurd hh hsf
      · exact absurd (henc.mp hh).1 h7

theorem pes_not_special (sc : Nat) (hpes : pes_startcode sc) :
    sc ≠ PACK_START_CODE ∧ sc ≠ SYSTEM_HEADER_START_CODE ∧
    ¬ (sc = PADDING_STREAM ∨ sc = PRIVATE_STREAM_2) := by
  refine ⟨?_, ?_, ?_⟩
  · intro h; subst h; exact absurd hpes (by decide)
  · intro h; subst h; exact absurd hpes (by decide)
  · rintro (h | h) <;> (subst h; exact absurd hpes (by decide))

theorem step_malformed_redo (ids bytes : List Nat) :
    demux_malformed bytes → ∃ rest, mpegps_read_packet_step ids bytes = .redo rest := by
  rintro ⟨sc, r0, hfind, hpes, hcond⟩
  rcases hbe : get_be16 r0 with ⟨len0, r1⟩
  rcases hopt : pes_optional_fields r1 (len0 : Int) with ⟨c, r2, len1⟩
  rw [hbe] at hcond
  simp only [hopt] at hcond
  obtain ⟨h80, h30, hlen⟩ := hcond
  obtain ⟨hn1, hn2, hn3⟩ := pes_not_special sc hpes
  refine ⟨(get_byte (get_byte r2).2).2, ?_⟩
  simp only [mpegps_read_packet_step, hfind]
  rw [if_neg hn1, if_neg hn2, if_neg hn3, if_neg (by simpa using hpes)]
  simp only [hbe, hopt]
  have hn5 : ¬ (c &&& 0xf0 = 0x20) := by
    intro h
    have hz := and_f0_c0 c _ h
    simp only [show ((0x20 : Nat) &&& 0xc0) = 0 from by decide] at hz
    rw [hz] at h80
    exact absurd h80 (by decide)
  have hn6 : ¬ (c &&& 0xf0 = 0x30) := by
    intro h
    have hz := and_f0_c0 c _ h
    simp only [show ((0x30 : Nat) &&& 0xc0) = 0 from by decide] at hz
    rw [hz] at h80
    exact absurd h80 (by decide)
  rw [if_neg hn5, if_neg hn6, if_pos h80, if_neg (not_not_intro h30), if_pos hlen]

/-- C7: `mpegps_read_packet` returns its unique error (`-EIO`) exactly
when the start-code scan exhausts its 100000-byte budget or hits EOF,
or an MPEG-2 PES header carries nonzero scrambling-control bits; a
declared header length exceeding the remaining packet length instead
resynchronises (`goto redo`) without an error. -/
theorem mpegps_read_packet_error_characterisation :
    (∀ ids bytes : List Nat,
        mpegps_read_packet_step ids bytes = .fail
          ↔ (demux_scan_failed bytes ∨ demux_encrypted bytes))
  ∧ (∀ ids bytes rest : List Nat,
        mpegps_read_packet_step ids bytes = .redo rest →
        mpegps_read_packet ids bytes = mpegps_read_packet ids rest)
  ∧ (∀ ids bytes : List Nat,
        demux_malformed bytes → ∃ rest, mpegps_read_packet_step ids bytes = .redo rest)
  ∧ (∀ ids bytes : List Nat,
        mpegps_read_packet ids bytes = .error ()
          ↔ (mpegps_read_packet_step ids bytes = .fail
             ∨ ∃ rest, mpegps_read_packet_step ids bytes = .redo rest
                 ∧ mpegps_read_packet ids rest = .error ())) := by
  refine ⟨step_fail_iff, ?_, step_malformed_redo, ?_⟩
  · intro ids bytes rest h
    rw [read_packet_unfold ids bytes]
    simp only [h]
  · intro ids bytes
    rw [read_packet_unfold ids bytes]
    rcases hstep : mpegps_read_packet_step ids bytes with ⟨pkt, rest⟩ | rest
    · simp [hstep]
    · simp [hstep]
    · simp [hstep]

/-- Witness for C7: on empty input the scan hits EOF, so
`mpegps_read_packet` returns the error. -/
theorem mpegps_read_packet_error_characterisation_witness :
    mpegps_read_packet [] [] = Except.error () :=
  (mpegps_read_packet_error_characterisation.2.2.2 [] []).mpr
    (Or.inl ((mpegps_read_packet_error_characterisation.1 [] []).mpr
      (Or.inl (by unfold demux_scan_failed; rfl))))

theorem pes_finish_ok_pts (ids : List Nat) (sc pts dts : Nat) (l : List Nat) (len : Int)
    (pkt : DemuxPacket) (rest : List Nat) :
    pes_finish ids sc pts dts l len = .ok pkt rest → pkt.pts = pts ∧ pkt.dts = dts := by
  intro h
  simp only [pes_finish] at h
  split_ifs at h <;>
    first
      | (simp only [PesStep.ok.injEq] at h
         obtain ⟨h1, -⟩ := h
         subst h1
         exact ⟨rfl, rfl⟩)
      | simp at h

/-- C10: when the PES header carries no timestamp (none of the MPEG-1
PTS-only, MPEG-1 PTS+DTS, or MPEG-2 PTS flag branches applies) and
`mpegps_read_packet` still returns a packet, that packet's `pts` (and
`dts`) is the initialisation value `0`, indistinguishable from a
genuine zero timestamp at the public interface. -/
theorem mpegps_read_packet_no_timestamp (ids bytes : List Nat) (sc : Nat)
    (r0 : List Nat) (len0 : Nat) (r1 : List Nat) (c : Nat) (r2 : List Nat) (len1 : Int) :
    find_start_code MAX_SYNC_SIZE 0xff bytes = (some sc, r0) →
    pes_startcode sc →
    get_be16 r0 = (len0, r1) →
    pes_optional_fields r1 (len0 : Int) = (c, r2, len1) →
    ¬ (c &&& 0xf0 = 0x20) →
    ¬ (c &&& 0xf0 = 0x30) →
    (c &&& 0xc0 = 0x80 →
      (get_byte r2).1 &&& 0xc0 ≠ 0x80 ∧ (get_byte r2).1 &&& 0xc0 ≠ 0xc0) →
    ∀ (pkt : DemuxPacket) (rest : List Nat),
      mpegps_read_packet_step ids bytes = .ok pkt rest →
      pkt.pts = 0 ∧ pkt.dts = 0 ∧ mpegps_read_packet ids bytes = .ok (pkt, rest) := by
  intro hsc hpes hbe hopt h5 h6 hflags pkt rest hstep
  have hpub : mpegps_read_packet ids bytes = .ok (pkt, rest) := by
    rw [read_packet_unfold ids bytes, hstep]
  obtain ⟨hn1, hn2, hn3⟩ := pes_not_special sc hpes
  simp only [mpegps_read_packet_step, hsc] at hstep
  rw [if_neg hn1, if_neg hn2, if_neg hn3, if_neg (by simpa using hpes)] at hstep
  simp only [hbe, hopt] at hstep
  rw [if_neg h5, if_neg h6] at hstep
  by_cases h7 : c &&& 0xc0 = 0x80
  · rw [if_pos h7] at hstep
    by_cases h8 : ¬ (c &&& 0x30 = 0)
    · rw [if_pos h8] at hstep
      simp at hstep
    rw [if_neg h8] at hstep
    by_cases h9 : ((get_byte (get_byte r2).2).1 : Int) > len1 - 2
    · rw [if_pos h9] at hstep
      simp at hstep
    rw [if_neg h9] at hstep
    rw [if_neg (hflags h7).1, if_neg (hflags h7).2] at hstep
    have hp := pes_finish_ok_pts _ _ _ _ _ _ _ _ hstep
    exact ⟨hp.1, hp.2, hpub⟩
  · rw [if_neg h7] at hstep
    have hp := pes_finish_ok_pts _ _ _ _ _ _ _ _ hstep
    exact ⟨hp.1, hp.2, hpub⟩

/-- Witness for C10 at a concrete timestamp-free PES packet: start code
`0x1C0`, length 5, flag byte `0x0F` (no PTS branch), 4 payload bytes;
the returned packet has `pts = 0` and is surfaced unchanged. -/
theorem mpegps_read_packet_no_timestamp_witness :
    (⟨0x1c0, 0, 0, [1, 2, 3, 4]⟩ : DemuxPacket).pts = 0
    ∧ (⟨0x1c0, 0, 0, [1, 2, 3, 4]⟩ : DemuxPacket).dts = 0
    ∧ mpegps_read_packet [] [0, 0, 1, 0xc0, 0, 5, 0x0f, 1, 2, 3, 4]
        = .ok (⟨0x1c0, 0, 0, [1, 2, 3, 4]⟩, []) :=
  mpegps_read_packet_no_timestamp [] [0, 0, 1, 0xc0, 0, 5, 0x0f, 1, 2, 3, 4]
    0x1c0 [0, 5, 0x0f, 1, 2, 3, 4] 5 [0x0f, 1, 2, 3, 4] 0x0f [1, 2, 3, 4] 4
    (by decide) (by decide) (by decide) (by decide) (by decide) (by decide)
    (by intro h; exact absurd h (by decide))
    ⟨0x1c0, 0, 0, [1, 2, 3, 4]⟩ [] (by decide)
